import Mathlib

/-!
Verification development for the timesheet conversion and reconciliation
tools (`local_convert_timesheet.py` and `analyze_discrepancies.py`).

Modelling conventions:
- Python strings are modelled as `List Char` (`Str`); CSV rows as partial
  maps `Str → Option Str`.
- Python `Decimal` values are modelled exactly by an integer mantissa and
  a base-ten exponent (`Decimal`), with value `num / 10 ^ exp`; the special
  values NaN and Infinity of the `decimal` module are not modelled (parsing
  their spellings yields the 0 fallback).
- Python `float` values produced by the analyzer are modelled exactly (no
  binary rounding); the analyzer only compares them and stores them.
- Comparisons between modelled numbers are value comparisons obtained by
  cross multiplication, mirroring numeric comparison in Python.
-/

namespace Timesheet

/-- Python strings, modelled as lists of characters. -/
abbrev Str := List Char

/-- Coerce a Lean string literal into the model. -/
def str (s : String) : Str := s.data

/-- The whitespace characters stripped by Python `str.strip` and matched
by the regex class backslash-s (ASCII range). -/
def pySpace (c : Char) : Bool :=
  c = (' ') || c = ('\t') || c = ('\n') || c = ('\r') || c = (Char.ofNat 11) || c = (Char.ofNat 12)

/-- Python `str.strip`: drop leading and trailing whitespace. -/
def pyStrip (s : Str) : Str :=
  ((s.dropWhile pySpace).reverse.dropWhile pySpace).reverse

/-- One pass of `re.sub(r"\s+", " ", s)`: every maximal whitespace run
becomes a single space. -/
def collapse : Str → Str
  | [] => []
  | [c] => if pySpace c then [' '] else [c]
  | c1 :: c2 :: rest =>
    if pySpace c1 && pySpace c2 then collapse (c2 :: rest)
    else (if pySpace c1 then ' ' else c1) :: collapse (c2 :: rest)

/-- `_norm_spaces` from `local_convert_timesheet.py`: strip, then collapse
whitespace runs to single spaces. -/
def norm_spaces (s : Str) : Str := collapse (pyStrip s)

/-- Python `str.lower` (ASCII data in this application). -/
def pyLower (s : Str) : Str := s.map Char.toLower

/-- Python `str.startswith`: does the second list start with the first? -/
def strStarts : Str → Str → Bool
  | [], _ => true
  | _ :: _, [] => false
  | c :: p, d :: l => c = d && strStarts p l

/-- Python `in` on strings: substring containment. -/
def strContains (pat : Str) : Str → Bool
  | [] => strStarts pat []
  | c :: rest => strStarts pat (c :: rest) || strContains pat rest

/-- Decimal digit test, `0-9`. -/
def isDigitChar (c : Char) : Bool := ('0') ≤ c && c ≤ ('9')

/-- Value of a decimal digit character. -/
def dval (c : Char) : Nat := c.toNat - 48

/-- Character of a decimal digit value. -/
def digitChar (d : Nat) : Char := Char.ofNat (48 + d)

/-- Take the longest digit run from the front, returning its digit values
and the remainder. -/
def takeDigits : Str → List Nat × Str
  | [] => ([], [])
  | c :: rest =>
    if isDigitChar c then
      let p := takeDigits rest
      (dval c :: p.1, p.2)
    else ([], c :: rest)

/-- Value of a most-significant-first digit list. -/
def digitsToNat (ds : List Nat) : Nat := ds.foldl (fun a d => 10 * a + d) 0

/-- Base-ten digits of a natural number, least significant first, with an
explicit fuel argument for structural recursion. -/
def digitsRevAux : Nat → Nat → List Nat
  | _, 0 => []
  | 0, _ + 1 => []
  | fuel + 1, n + 1 => ((n + 1) % 10) :: digitsRevAux fuel ((n + 1) / 10)

/-- Base-ten digits, least significant first. -/
def natDigitsRev (n : Nat) : List Nat := digitsRevAux n n

/-- Base-ten digits, most significant first. -/
def natDigits (n : Nat) : List Nat := (natDigitsRev n).reverse

/-- Digit values rendered as characters. -/
def digitsChars (ds : List Nat) : Str := ds.map digitChar

/-- Decimal rendering of a natural number (Python `str` on a nonnegative
integer). -/
def natStr (n : Nat) : Str := if n = 0 then [('0')] else digitsChars (natDigits n)

/-- Python `str.zfill`: left-pad with zeros to the given width, keeping a
leading sign character in place. -/
def zfill (w : Nat) : Str → Str
  | [] => List.replicate w ('0')
  | c :: rest =>
    if c = ('+') || c = ('-') then c :: (List.replicate (w - (c :: rest).length) ('0') ++ rest)
    else List.replicate (w - (c :: rest).length) ('0') ++ (c :: rest)

/-- Zero-padded decimal rendering of a natural number. -/
def padNum (w n : Nat) : Str := zfill w (natStr n)

/-- Python `Decimal`, restricted to finite values: the represented number
is `num / 10 ^ exp`. -/
structure Decimal where
  num : Int
  exp : Nat
deriving DecidableEq, Repr

/-- The zero decimal. -/
def Decimal.zero : Decimal := ⟨0, 0⟩

/-- A natural number as a decimal. -/
def Decimal.ofNat (n : Nat) : Decimal := ⟨n, 0⟩

/-- Numeric equality of decimals (Python `==`), by cross multiplication. -/
def Decimal.eqv (a b : Decimal) : Prop := a.num * 10 ^ b.exp = b.num * 10 ^ a.exp

/-- Numeric strict order on decimals (Python `<`). -/
def Decimal.lt (a b : Decimal) : Prop := a.num * 10 ^ b.exp < b.num * 10 ^ a.exp

/-- Numeric order on decimals (Python `<=`). -/
def Decimal.le (a b : Decimal) : Prop := a.num * 10 ^ b.exp ≤ b.num * 10 ^ a.exp

instance (a b : Decimal) : Decidable (Decimal.eqv a b) := by unfold Decimal.eqv; infer_instance
instance (a b : Decimal) : Decidable (Decimal.lt a b) := by unfold Decimal.lt; infer_instance
instance (a b : Decimal) : Decidable (Decimal.le a b) := by unfold Decimal.le; infer_instance

/-- Exponent part of the decimal numeric-string grammar: empty, or `e`/`E`,
an optional sign, and at least one digit consuming the rest. -/
def parseExpPart : Str → Option Int
  | [] => some 0
  | c :: rest =>
    if c = ('e') || c = ('E') then
      match rest with
      | ('+') :: r =>
        let p := takeDigits r
        if p.1 ≠ [] ∧ p.2 = [] then some (digitsToNat p.1) else none
      | ('-') :: r =>
        let p := takeDigits r
        if p.1 ≠ [] ∧ p.2 = [] then some (-(digitsToNat p.1 : Int)) else none
      | r =>
        let p := takeDigits r
        if p.1 ≠ [] ∧ p.2 = [] then some (digitsToNat p.1) else none
    else none

/-- Unsigned part of the decimal grammar: digits with an optional point,
at least one digit in total, then an optional exponent part. Returns the
coefficient and the net exponent (exponent minus fraction length). -/
def parseCoeffExp (l : Str) : Option (Nat × Int) :=
  let p1 := takeDigits l
  match p1.2 with
  | ('.') :: r2 =>
    let p2 := takeDigits r2
    if p1.1 = [] ∧ p2.1 = [] then none
    else
      match parseExpPart p2.2 with
      | some k => some (digitsToNat (p1.1 ++ p2.1), k - (p2.1.length : Int))
      | none => none
  | _ =>
    if p1.1 = [] then none
    else
      match parseExpPart p1.2 with
      | some k => some (digitsToNat p1.1, k)
      | none => none

/-- Assemble a decimal from sign, coefficient and net exponent. -/
def mkDec (neg : Bool) (coeff : Nat) (k : Int) : Decimal :=
  if 0 ≤ k then ⟨(if neg then -(coeff : Int) else (coeff : Int)) * 10 ^ k.toNat, 0⟩
  else ⟨(if neg then -(coeff : Int) else (coeff : Int)), (-k).toNat⟩

/-- The decimal numeric-string grammar with its optional leading sign. -/
def parseNumericString : Str → Option Decimal
  | [] => none
  | c :: r =>
    if c = ('+') then (parseCoeffExp r).map (fun p => mkDec false p.1 p.2)
    else if c = ('-') then (parseCoeffExp r).map (fun p => mkDec true p.1 p.2)
    else (parseCoeffExp (c :: r)).map (fun p => mkDec false p.1 p.2)

/-- The `Decimal` constructor on strings: surrounding whitespace and
underscores are removed, then the numeric-string grammar applies. -/
def decimalOfString (l : Str) : Option Decimal :=
  parseNumericString (pyStrip (l.filter (fun c => c ≠ ('_'))))

/-- `_parse_decimal` from `local_convert_timesheet.py`: strip, return 0 on
empty input, remove thousands-separator commas, fall back to 0 when the
constructor rejects the text. -/
def parse_decimal (s : Str) : Decimal :=
  let t := pyStrip s
  if t = [] then Decimal.zero
  else
    match decimalOfString (t.filter (fun c => c ≠ (','))) with
    | some d => d
    | none => Decimal.zero

/-- Divide trailing zeros out of a mantissa while the exponent lasts, as
`Decimal.normalize` does on the coefficient. -/
def reduceNat : Nat → Nat → Nat × Nat
  | m, 0 => (m, 0)
  | m, e + 1 => if m % 10 = 0 then reduceNat (m / 10) e else (m, e + 1)

/-- `_fmt_decimal` from `local_convert_timesheet.py`: normalize, render in
fixed-point form, drop trailing fractional zeros and a trailing point. -/
def fmt_decimal (d : Decimal) : Str :=
  let p := reduceNat d.num.natAbs d.exp
  let core :=
    if p.2 = 0 then natStr p.1
    else natStr (p.1 / 10 ^ p.2) ++ ('.') :: padNum p.2 (p.1 % 10 ^ p.2)
  (if d.num < 0 then [('-')] else []) ++ core

/-- Gregorian leap-year test. -/
def isLeap (y : Nat) : Bool := (y % 4 = 0 && y % 100 ≠ 0) || y % 400 = 0

/-- Days in a month of the proleptic Gregorian calendar. -/
def daysInMonth (y m : Nat) : Nat :=
  if m = 2 then (if isLeap y then 29 else 28)
  else if m = 4 ∨ m = 6 ∨ m = 9 ∨ m = 11 then 30
  else 31

/-- Python `str.split` on a slash. -/
def splitSlash : Str → List Str
  | [] => [[]]
  | c :: rest =>
    if c = ('/') then [] :: splitSlash rest
    else
      match splitSlash rest with
      | g :: gs => (c :: g) :: gs
      | [] => [[c]]

/-- Are all characters decimal digits? -/
def allDigits (s : Str) : Bool := s.all isDigitChar

/-- The `strptime` day field: one or two digits valued 1 to 31. -/
def dayOfStr (s : Str) : Option Nat :=
  if allDigits s ∧ 1 ≤ s.length ∧ s.length ≤ 2 then
    let v := digitsToNat (s.map dval)
    if 1 ≤ v ∧ v ≤ 31 then some v else none
  else none

/-- The `strptime` month field: one or two digits valued 1 to 12. -/
def monthOfStr (s : Str) : Option Nat :=
  if allDigits s ∧ 1 ≤ s.length ∧ s.length ≤ 2 then
    let v := digitsToNat (s.map dval)
    if 1 ≤ v ∧ v ≤ 12 then some v else none
  else none

/-- The `strptime` four-digit year field. -/
def year4Of (s : Str) : Option Nat :=
  if allDigits s ∧ s.length = 4 then some (digitsToNat (s.map dval)) else none

/-- The `strptime` two-digit year field, with the POSIX pivot: 00 to 68
become 2000 to 2068, 69 to 99 become 1969 to 1999. -/
def year2Of (s : Str) : Option Nat :=
  if allDigits s ∧ s.length = 2 then
    let v := digitsToNat (s.map dval)
    some (if v ≤ 68 then 2000 + v else 1900 + v)
  else none

/-- Full `strptime` match for the day/month/four-digit-year format,
including the calendar validity check made by the date constructor. -/
def matchDMY4 (t : Str) : Option (Nat × Nat × Nat) :=
  match splitSlash t with
  | [ds, ms, ys] =>
    match dayOfStr ds, monthOfStr ms, year4Of ys with
    | some d, some m, some y =>
      if 1 ≤ y ∧ d ≤ daysInMonth y m then some (d, m, y) else none
    | _, _, _ => none
  | _ => none

/-- Full `strptime` match for the day/month/two-digit-year format, with
the year already widened, including the calendar validity check. -/
def matchDMY2 (t : Str) : Option (Nat × Nat × Nat) :=
  match splitSlash t with
  | [ds, ms, ys] =>
    match dayOfStr ds, monthOfStr ms, year2Of ys with
    | some d, some m, some y =>
      if d ≤ daysInMonth y m then some (d, m, y) else none
    | _, _, _ => none
  | _ => none

/-- ISO rendering `YYYY-MM-DD` of a date. -/
def isoOfYMD (y m d : Nat) : Str :=
  padNum 4 y ++ ('-') :: padNum 2 m ++ ('-') :: padNum 2 d

/-- Strict `date.fromisoformat` match: ten characters shaped
`YYYY-MM-DD` naming a valid calendar date. -/
def isoParse (t : Str) : Option (Nat × Nat × Nat) :=
  match t with
  | [y1, y2, y3, y4, h1, m1, m2, h2, d1, d2] =>
    if h1 = ('-') ∧ h2 = ('-') ∧ allDigits [y1, y2, y3, y4] ∧ allDigits [m1, m2] ∧ allDigits [d1, d2] then
      let y := digitsToNat ([y1, y2, y3, y4].map dval)
      let m := digitsToNat ([m1, m2].map dval)
      let d := digitsToNat ([d1, d2].map dval)
      if 1 ≤ y ∧ 1 ≤ m ∧ m ≤ 12 ∧ 1 ≤ d ∧ d ≤ daysInMonth y m then some (y, m, d) else none
    else none
  | _ => none

/-- `_parse_weekending` from `local_convert_timesheet.py`: strip; empty
stays empty; try day/month/four-digit-year, then day/month/two-digit-year,
then ISO passthrough; otherwise return the stripped text unchanged. -/
def parse_weekending (s : Str) : Str :=
  let t := pyStrip s
  if t = [] then []
  else
    match matchDMY4 t with
    | some p => isoOfYMD p.2.2 p.2.1 p.1
    | none =>
      match matchDMY2 t with
      | some p => isoOfYMD p.2.2 p.2.1 p.1
      | none =>
        match isoParse t with
        | some p => isoOfYMD p.1 p.2.1 p.2.2
        | none => t

/-- `parse_date` from `analyze_discrepancies.py`: `None` for empty input;
strip; pass through text already shaped `YYYY-MM-DD` by the literal
length-ten check; reassemble three slash-separated parts with `zfill`
padding and a blanket `20` prefix on two-character years; otherwise
return the stripped text. -/
def parse_date (s : Str) : Option Str :=
  if s = [] then none
  else
    let t := pyStrip s
    if t.contains ('-') ∧ t.length = 10 ∧ t[4]? = some ('-') then some t
    else
      match splitSlash t with
      | [ds, ms, ys] =>
        let ys2 := if ys.length = 2 then ('2') :: ('0') :: ys else ys
        some (ys2 ++ ('-') :: zfill 2 ms ++ ('-') :: zfill 2 ds)
      | _ => some t

/-- A CSV row: a partial map from column name to cell text. -/
def Row := Str → Option Str

/-- Python `dict.get` with a default. -/
def rget (r : Row) (k : Str) (d : Str) : Str := (r k).getD d

/-- Build a row from an association list (first binding wins). -/
def Row.ofList (l : List (Str × Str)) : Row :=
  fun k => (l.find? (fun p => p.1 == k)).map (fun p => p.2)

/-- `_desc` from `local_convert_timesheet.py`: the three segments, each
whitespace-normalized, joined by spaced hyphens. -/
def descStr (pre client job : Str) : Str :=
  norm_spaces pre ++ str (" - ") ++ norm_spaces client ++ str (" - ") ++ norm_spaces job

/-- `convert_rows` from `local_convert_timesheet.py`. -/
def convert_rows : List Row → List (List Str)
  | [] => []
  | r :: rest =>
    let employeeid := norm_spaces (rget r (str ("Candidate RefNo")) [])
    let firstname := norm_spaces (rget r (str ("Candidate Forename")) [])
    let surname := norm_spaces (rget r (str ("Candidate Surname")) [])
    let client := rget r (str ("Client Name")) []
    let job := rget r (str ("Contract JobTitle")) []
    let weekending := parse_weekending (rget r (str ("Weekending")) [])
    if employeeid = [] ∨ firstname = [] ∨ surname = [] ∨ weekending = [] then
      convert_rows rest
    else if pyLower employeeid = str ("candidate refno") then
      convert_rows rest
    else
      let std_hours := parse_decimal (rget r (str ("Std1 Hrs")) [])
      let ot1_hours := parse_decimal (rget r (str ("OT1 Hrs")) [])
      let std_rate := parse_decimal (rget r (str ("Std Rate")) [])
      let ot1_rate := parse_decimal (rget r (str ("OT1 Rate")) [])
      let expenses := parse_decimal (rget r (str ("Expenses")) [])
      (if ¬ Decimal.eqv expenses Decimal.zero then
        [[employeeid, firstname, surname, descStr (str ("Expenses")) client job,
          str ("1"), fmt_decimal expenses, weekending, str ("expense")]]
      else []) ++
      (if ¬ Decimal.eqv std_hours Decimal.zero ∧ ¬ Decimal.eqv std_rate Decimal.zero then
        [[employeeid, firstname, surname, descStr (str ("Std Hrs")) client job,
          fmt_decimal std_hours, fmt_decimal std_rate, weekending, str ("hours")]]
      else []) ++
      (if ¬ Decimal.eqv ot1_hours Decimal.zero ∧ ¬ Decimal.eqv ot1_rate Decimal.zero then
        [[employeeid, firstname, surname, descStr (str ("OT1 Hrs")) client job,
          fmt_decimal ot1_hours, fmt_decimal ot1_rate, weekending, str ("hours")]]
      else []) ++
      convert_rows rest

/-- Python `a or b` on an optional cell and a fallback string: the cell
is used only when present and nonempty. -/
def orDefault (v : Option Str) (fb : Str) : Str :=
  match v with
  | some s => if s = [] then fb else s
  | none => fb

/-- The local `parse_num` of `analyze_discrepancies.py`: 0 for empty
input; strip, drop commas, fall back to 0 when `float` rejects the text.
Float values are modelled exactly. -/
def parse_num (s : Str) : Decimal :=
  if s = [] then Decimal.zero
  else
    match decimalOfString ((pyStrip s).filter (fun c => c ≠ (','))) with
    | some d => d
    | none => Decimal.zero

/-- One expected line produced by `analyze_input`. -/
structure ExpLine where
  employeeid : Str
  firstname : Str
  surname : Str
  description : Str
  amount : Decimal
  rate : Decimal
  weekending : Option Str
  unit : Str
  inputRow : Nat
  ty : Str
deriving DecidableEq, Repr

/-- One potential-issue record produced by `analyze_input` (its text
interpolates the rate, which is kept as a field here). -/
structure InputIssue where
  row : Nat
  refno : Str
  name : Str
  otRate : Decimal
deriving DecidableEq, Repr

/-- The loop body of `analyze_input` for the row at index `i`. -/
def analyzeRow (i : Nat) (r : Row) : List ExpLine × List InputIssue :=
  let refno := pyStrip (rget r (str ("Candidate RefNo")) [])
  let client := pyStrip (rget r (str ("Client Name")) [])
  let job_title := pyStrip (rget r (str ("Contract JobTitle")) [])
  let forename := pyStrip (rget r (str ("Candidate Forename")) [])
  let surname := pyStrip (rget r (str ("Candidate Surname")) [])
  let weekending := pyStrip (rget r (str ("Weekending")) [])
  let std_hrs := parse_num (orDefault (r (str ("Std1 Hrs"))) (orDefault (r (str ("Std Hrs"))) (str ("0"))))
  let ot1_hrs := parse_num (orDefault (r (str ("OT1 Hrs"))) (orDefault (r (str ("OT1 HR"))) (str ("0"))))
  let std_rate := parse_num (orDefault (r (str ("Std Rate"))) (orDefault (r (str ("Rate"))) (str ("0"))))
  let ot1_rate := parse_num (orDefault (r (str ("OT1 Rate"))) (str ("0")))
  let expenses := parse_num (orDefault (r (str ("Expenses"))) (str ("0")))
  if refno = [] ∨ forename = [] ∨ surname = [] ∨ weekending = [] then ([], [])
  else
    let weekending_formatted := parse_date weekending
    let expected :=
      (if Decimal.lt Decimal.zero expenses then
        [{ employeeid := refno, firstname := forename, surname := surname,
           description := str ("Expenses - ") ++ client ++ str (" - ") ++ job_title,
           amount := Decimal.ofNat 1, rate := expenses,
           weekending := weekending_formatted, unit := str ("expense"),
           inputRow := i, ty := str ("Expenses") }]
      else []) ++
      (if Decimal.lt Decimal.zero std_hrs ∧ Decimal.lt Decimal.zero std_rate then
        [{ employeeid := refno, firstname := forename, surname := surname,
           description := str ("Std Hrs - ") ++ client ++ str (" - ") ++ job_title,
           amount := std_hrs, rate := std_rate,
           weekending := weekending_formatted, unit := str ("hours"),
           inputRow := i, ty := str ("Std Hrs") }]
      else []) ++
      (if Decimal.lt Decimal.zero ot1_hrs ∧ Decimal.lt Decimal.zero ot1_rate then
        [{ employeeid := refno, firstname := forename, surname := surname,
           description := str ("OT1 Hrs - ") ++ client ++ str (" - ") ++ job_title,
           amount := ot1_hrs, rate := ot1_rate,
           weekending := weekending_formatted, unit := str ("hours"),
           inputRow := i, ty := str ("OT1 Hrs") }]
      else [])
    let issues :=
      if Decimal.lt Decimal.zero ot1_rate ∧ Decimal.eqv ot1_hrs Decimal.zero then
        [{ row := i, refno := refno, name := forename ++ (' ') :: surname, otRate := ot1_rate }]
      else []
    (expected, issues)

/-- The enumerated loop of `analyze_input`, starting at row index 2. -/
def analyzeAux : Nat → List Row → List ExpLine × List InputIssue
  | _, [] => ([], [])
  | i, r :: rest =>
    let p := analyzeRow i r
    let q := analyzeAux (i + 1) rest
    (p.1 ++ q.1, p.2 ++ q.2)

/-- `analyze_input` from `analyze_discrepancies.py`, on the already
materialized row list. -/
def analyze_input (rows : List Row) : List ExpLine × List InputIssue :=
  analyzeAux 2 rows

/-- One discrepancy record produced by `compare_outputs`. -/
structure Discrepancy where
  ty : Str
  employeeid : Str
  description : Str
  amount : Str
  rate : Str
  weekending : Str
  issue : Str
deriving DecidableEq, Repr

/-- The line-type classification of `compare_outputs`, by matching the
start of the description against a fixed ordered list of labels. -/
def lineTypeOf (d : Str) : Str :=
  if strStarts (str ("Std Hrs")) d then str ("Std Hrs")
  else if strStarts (str ("OT1 Hrs")) d then str ("OT1 Hrs")
  else if strStarts (str ("OT2 Hrs")) d then str ("OT2 Hrs")
  else if strStarts (str ("OT3 Hrs")) d then str ("OT3 Hrs")
  else if strStarts (str ("Expenses")) d then str ("Expenses")
  else str ("Unknown")

/-- The grouping key of `compare_outputs`. -/
def keyOf (w : Row) : Str × Str × Str :=
  (pyStrip (rget w (str ("employeeid")) []),
   pyStrip (rget w (str ("weekending")) []),
   lineTypeOf (rget w (str ("description")) []))

/-- Keys in first-occurrence order, as iterating a `defaultdict` built by
appending yields them. -/
def dedupFirstAux {K : Type} [DecidableEq K] (seen : List K) : List K → List K
  | [] => []
  | k :: rest =>
    if k ∈ seen then dedupFirstAux seen rest
    else k :: dedupFirstAux (k :: seen) rest

/-- The EXTRA_LINE discrepancy built for one actual line. -/
def mkExtra (label : Str) (empId : Str) (al : Row) : Discrepancy :=
  { ty := str ("EXTRA_LINE"),
    employeeid := empId,
    description := rget al (str ("description")) [],
    amount := rget al (str ("amount")) [],
    rate := rget al (str ("rate")) [],
    weekending := rget al (str ("weekending")) [],
    issue := str ("Line exists in ") ++ label ++ str (" but shouldn") ++ [Char.ofNat 39] ++ str ("t based on input") }

/-- `compare_outputs` from `analyze_discrepancies.py`, on the already
materialized actual rows: group the actual lines by key, and emit one
EXTRA_LINE discrepancy per actual line under a key with no matching
expected line. -/
def compare_outputs (expected : List ExpLine) (actualRows : List Row) (label : Str) : List Discrepancy :=
  let keys := dedupFirstAux [] (actualRows.map keyOf)
  keys.foldr
    (fun k acc =>
      let lines := actualRows.filter (fun w => keyOf w == k)
      let matching := expected.filter
        (fun e => e.employeeid == k.1 && e.weekending == some k.2.1 && e.ty == k.2.2)
      (if matching.isEmpty && !lines.isEmpty then lines.map (mkExtra label k.1) else []) ++ acc)
    []

/-- Python `float` on a stripped cell, as an optional exact value. -/
def floatOpt (s : Str) : Option Decimal := decimalOfString s

/-- One issue found by the critical-issues loop of `main`; the three
constructors mark which branch fired, carrying the interpolated data. -/
inductive MainIssue where
  | ot1Zero (employeeid name description amount rate : Str) (otRate : Decimal)
  | expZero (employeeid name description amount rate : Str) (otRate : Decimal)
  | swapped (employeeid name description amount rate : Str) (amt rt : Decimal)
deriving DecidableEq, Repr

/-- Is an issue from the zero-overtime branch? -/
def MainIssue.isOT1Zero : MainIssue → Bool
  | .ot1Zero _ _ _ _ _ _ => true
  | _ => false

/-- Is an issue from the swapped-fields branch? -/
def MainIssue.isSwapped : MainIssue → Bool
  | .swapped _ _ _ _ _ _ _ => true
  | _ => false

/-- The input rows matching one output row in the `input_by_refno`
grouping of `main`: same stripped reference and the normalized input
week-ending equal to the output week-ending. -/
def matchingInputs (inputRows : List Row) (w : Row) : List Row :=
  let empId := pyStrip (rget w (str ("employeeid")) [])
  let we := pyStrip (rget w (str ("weekending")) [])
  inputRows.filter
    (fun inp =>
      pyStrip (rget inp (str ("Candidate RefNo")) []) == empId
        && parse_date (pyStrip (rget inp (str ("Weekending")) [])) == some we)

/-- The issue built by the zero-overtime branch of `main`. -/
def mkOT1Zero (w : Row) (otRate : Decimal) : MainIssue :=
  .ot1Zero (pyStrip (rget w (str ("employeeid")) []))
    (rget w (str ("firstname")) [] ++ (' ') :: rget w (str ("surname")) [])
    (rget w (str ("description")) [])
    (pyStrip (rget w (str ("amount")) []))
    (pyStrip (rget w (str ("rate")) []))
    otRate

/-- The issue built by the zero-expenses branch of `main`. -/
def mkExpZero (w : Row) (otRate : Decimal) : MainIssue :=
  .expZero (pyStrip (rget w (str ("employeeid")) []))
    (rget w (str ("firstname")) [] ++ (' ') :: rget w (str ("surname")) [])
    (rget w (str ("description")) [])
    (pyStrip (rget w (str ("amount")) []))
    (pyStrip (rget w (str ("rate")) []))
    otRate

/-- The issue built by the swapped-fields branch of `main`. -/
def mkSwapped (w : Row) (amt rt : Decimal) : MainIssue :=
  .swapped (pyStrip (rget w (str ("employeeid")) []))
    (rget w (str ("firstname")) [] ++ (' ') :: rget w (str ("surname")) [])
    (rget w (str ("description")) [])
    (pyStrip (rget w (str ("amount")) []))
    (pyStrip (rget w (str ("rate")) []))
    amt rt

/-- The swapped-fields check of the critical-issues loop for one output
row: guarded by both cells parsing as floats, the amount above 100, the
rate at most 10, and Hrs occurring in the description. -/
def swapSeg (w : Row) : List MainIssue :=
  match floatOpt (pyStrip (rget w (str ("amount")) [])),
      floatOpt (pyStrip (rget w (str ("rate")) [])) with
  | some amt, some rt =>
    if Decimal.lt (Decimal.ofNat 100) amt ∧ Decimal.le rt (Decimal.ofNat 10)
        ∧ strContains (str ("Hrs")) (rget w (str ("description")) []) then
      [mkSwapped w amt rt]
    else []
  | _, _ => []

/-- The checks of the critical-issues loop of `main` for one output row
against one matching input row, in source order: an overtime line with
zero input overtime hours, an expenses line with zero input expenses, and
the swapped amount/rate heuristic. -/
def mainRowInp (w inp : Row) : List MainIssue :=
  let d := rget w (str ("description")) []
  let ot1_hrs := parse_num (rget inp (str ("OT1 Hrs")) (str ("0")))
  let ot1_rate := parse_num (rget inp (str ("OT1 Rate")) (str ("0")))
  let expenses := parse_num (rget inp (str ("Expenses")) (str ("0")))
  (if strContains (str ("OT1 Hrs")) d ∧ Decimal.eqv ot1_hrs Decimal.zero then
    [mkOT1Zero w ot1_rate]
  else []) ++
  (if strContains (str ("Expenses")) d ∧ Decimal.eqv expenses Decimal.zero then
    [mkExpZero w ot1_rate]
  else []) ++
  swapSeg w

/-- All issues the critical-issues loop of `main` finds for one output
row. -/
def mainRowIssues (inputRows : List Row) (w : Row) : List MainIssue :=
  (matchingInputs inputRows w).foldr (fun inp acc => mainRowInp w inp ++ acc) []

/-- The critical-issues loop of `main` over the wrong-output rows. -/
def mainIssues (inputRows wrongRows : List Row) : List MainIssue :=
  wrongRows.foldr (fun w acc => mainRowIssues inputRows w ++ acc) []

/-- Converter view: the normalized employee reference of a row. -/
def convEmployeeid (r : Row) : Str := norm_spaces (rget r (str ("Candidate RefNo")) [])

/-- Converter view: the normalized forename of a row. -/
def convFirstname (r : Row) : Str := norm_spaces (rget r (str ("Candidate Forename")) [])

/-- Converter view: the normalized surname of a row. -/
def convSurname (r : Row) : Str := norm_spaces (rget r (str ("Candidate Surname")) [])

/-- Converter view: the raw client cell of a row. -/
def convClient (r : Row) : Str := rget r (str ("Client Name")) []

/-- Converter view: the raw job-title cell of a row. -/
def convJob (r : Row) : Str := rget r (str ("Contract JobTitle")) []

/-- Converter view: the normalized week-ending of a row. -/
def convWeek (r : Row) : Str := parse_weekending (rget r (str ("Weekending")) [])

/-- Converter view: the parsed standard hours of a row. -/
def convStdH (r : Row) : Decimal := parse_decimal (rget r (str ("Std1 Hrs")) [])

/-- Converter view: the parsed overtime hours of a row. -/
def convOtH (r : Row) : Decimal := parse_decimal (rget r (str ("OT1 Hrs")) [])

/-- Converter view: the parsed standard rate of a row. -/
def convStdR (r : Row) : Decimal := parse_decimal (rget r (str ("Std Rate")) [])

/-- Converter view: the parsed overtime rate of a row. -/
def convOtR (r : Row) : Decimal := parse_decimal (rget r (str ("OT1 Rate")) [])

/-- Converter view: the parsed expenses of a row. -/
def convExp (r : Row) : Decimal := parse_decimal (rget r (str ("Expenses")) [])

/-- The expenses output line the converter builds for a row. -/
def expLineRow (r : Row) : List Str :=
  [convEmployeeid r, convFirstname r, convSurname r,
   descStr (str ("Expenses")) (convClient r) (convJob r),
   str ("1"), fmt_decimal (convExp r), convWeek r, str ("expense")]

/-- The standard-hours output line the converter builds for a row. -/
def stdLineRow (r : Row) : List Str :=
  [convEmployeeid r, convFirstname r, convSurname r,
   descStr (str ("Std Hrs")) (convClient r) (convJob r),
   fmt_decimal (convStdH r), fmt_decimal (convStdR r), convWeek r, str ("hours")]

/-- The overtime output line the converter builds for a row. -/
def otLineRow (r : Row) : List Str :=
  [convEmployeeid r, convFirstname r, convSurname r,
   descStr (str ("OT1 Hrs")) (convClient r) (convJob r),
   fmt_decimal (convOtH r), fmt_decimal (convOtR r), convWeek r, str ("hours")]

/-- A concrete valid input row: expenses 25.50, standard hours 37.5 at
rate 12, no overtime. -/
def rowC3 : Row := Row.ofList
  [(str ("Candidate RefNo"), str ("E1")), (str ("Candidate Forename"), str ("Ann")),
   (str ("Candidate Surname"), str ("Bee")), (str ("Client Name"), str ("Acme")),
   (str ("Contract JobTitle"), str ("Fitter")), (str ("Weekending"), str ("05/03/2025")),
   (str ("Expenses"), str ("25.50")), (str ("Std1 Hrs"), str ("37.5")),
   (str ("Std Rate"), str ("12")), (str ("OT1 Hrs"), str ("0")),
   (str ("OT1 Rate"), str ("0"))]

/-- Analyzer view: the standard hours value with its column fallback. -/
def anaStdH (r : Row) : Decimal :=
  parse_num (orDefault (r (str ("Std1 Hrs"))) (orDefault (r (str ("Std Hrs"))) (str ("0"))))

/-- Analyzer view: the overtime hours value with its column fallback. -/
def anaOtH (r : Row) : Decimal :=
  parse_num (orDefault (r (str ("OT1 Hrs"))) (orDefault (r (str ("OT1 HR"))) (str ("0"))))

/-- Analyzer view: the standard rate value with its column fallback. -/
def anaStdR (r : Row) : Decimal :=
  parse_num (orDefault (r (str ("Std Rate"))) (orDefault (r (str ("Rate"))) (str ("0"))))

/-- Analyzer view: the overtime rate value. -/
def anaOtR (r : Row) : Decimal :=
  parse_num (orDefault (r (str ("OT1 Rate"))) (str ("0")))

/-- Analyzer view: the expenses value. -/
def anaExp (r : Row) : Decimal :=
  parse_num (orDefault (r (str ("Expenses"))) (str ("0")))

/-- Stripping and full whitespace normalization agree on this text. -/
def stripNormed (v : Str) : Prop := pyStrip v = norm_spaces v

/-- The restrictions under which the analyzer and the converter read one
row identically: text fields already internally normalized, the header
guard value absent, the two date normalizers in agreement, the analyzer
fallback columns yielding the converter values, and every numeric driver
nonnegative (the two rule sets gate differently on signs). -/
def aligned (r : Row) : Prop :=
  stripNormed (rget r (str ("Candidate RefNo")) []) ∧
  stripNormed (rget r (str ("Candidate Forename")) []) ∧
  stripNormed (rget r (str ("Candidate Surname")) []) ∧
  stripNormed (rget r (str ("Client Name")) []) ∧
  stripNormed (rget r (str ("Contract JobTitle")) []) ∧
  pyLower (norm_spaces (rget r (str ("Candidate RefNo")) [])) ≠ str ("candidate refno") ∧
  (pyStrip (rget r (str ("Weekending")) []) ≠ [] →
    parse_date (pyStrip (rget r (str ("Weekending")) [])) =
      some (parse_weekending (rget r (str ("Weekending")) []))) ∧
  anaExp r = convExp r ∧ anaStdH r = convStdH r ∧ anaStdR r = convStdR r ∧
  anaOtH r = convOtH r ∧ anaOtR r = convOtR r ∧
  0 ≤ (convExp r).num ∧ 0 ≤ (convStdH r).num ∧ 0 ≤ (convStdR r).num ∧
  0 ≤ (convOtH r).num ∧ 0 ≤ (convOtR r).num

/-- The expenses expected line the analyzer builds for the row at index
i. -/
def mkAnaExpLine (i : Nat) (r : Row) : ExpLine :=
  { employeeid := pyStrip (rget r (str ("Candidate RefNo")) []),
    firstname := pyStrip (rget r (str ("Candidate Forename")) []),
    surname := pyStrip (rget r (str ("Candidate Surname")) []),
    description := str ("Expenses - ") ++ pyStrip (rget r (str ("Client Name")) []) ++
      str (" - ") ++ pyStrip (rget r (str ("Contract JobTitle")) []),
    amount := Decimal.ofNat 1, rate := anaExp r,
    weekending := parse_date (pyStrip (rget r (str ("Weekending")) [])),
    unit := str ("expense"), inputRow := i, ty := str ("Expenses") }

/-- The standard-hours expected line the analyzer builds. -/
def mkAnaStdLine (i : Nat) (r : Row) : ExpLine :=
  { employeeid := pyStrip (rget r (str ("Candidate RefNo")) []),
    firstname := pyStrip (rget r (str ("Candidate Forename")) []),
    surname := pyStrip (rget r (str ("Candidate Surname")) []),
    description := str ("Std Hrs - ") ++ pyStrip (rget r (str ("Client Name")) []) ++
      str (" - ") ++ pyStrip (rget r (str ("Contract JobTitle")) []),
    amount := anaStdH r, rate := anaStdR r,
    weekending := parse_date (pyStrip (rget r (str ("Weekending")) [])),
    unit := str ("hours"), inputRow := i, ty := str ("Std Hrs") }

/-- The overtime expected line the analyzer builds. -/
def mkAnaOtLine (i : Nat) (r : Row) : ExpLine :=
  { employeeid := pyStrip (rget r (str ("Candidate RefNo")) []),
    firstname := pyStrip (rget r (str ("Candidate Forename")) []),
    surname := pyStrip (rget r (str ("Candidate Surname")) []),
    description := str ("OT1 Hrs - ") ++ pyStrip (rget r (str ("Client Name")) []) ++
      str (" - ") ++ pyStrip (rget r (str ("Contract JobTitle")) []),
    amount := anaOtH r, rate := anaOtR r,
    weekending := parse_date (pyStrip (rget r (str ("Weekending")) [])),
    unit := str ("hours"), inputRow := i, ty := str ("OT1 Hrs") }

/-- The potential-issue record the analyzer builds. -/
def mkAnaIssue (i : Nat) (r : Row) : InputIssue :=
  { row := i, refno := pyStrip (rget r (str ("Candidate RefNo")) []),
    name := pyStrip (rget r (str ("Candidate Forename")) []) ++
      (' ') :: pyStrip (rget r (str ("Candidate Surname")) []),
    otRate := anaOtR r }

instance (v : Str) : Decidable (stripNormed v) := by unfold stripNormed; infer_instance

instance (r : Row) : Decidable (aligned r) := by unfold aligned; infer_instance

/-- One expected line agrees with one output row: the text fields are
equal, and the numeric cells parse back to the expected values. -/
def lineMatches (e : ExpLine) (l : List Str) : Prop :=
  ∃ a r : Str,
    l = [e.employeeid, e.firstname, e.surname, e.description, a, r,
      e.weekending.getD [], e.unit] ∧
    Decimal.eqv (parse_decimal a) e.amount ∧ Decimal.eqv (parse_decimal r) e.rate

/-- A concrete valid input row with a negative expenses value. -/
def rowC1 : Row := Row.ofList
  [(str ("Candidate RefNo"), str ("E1")), (str ("Candidate Forename"), str ("Ann")),
   (str ("Candidate Surname"), str ("Bee")), (str ("Client Name"), str ("Acme")),
   (str ("Contract JobTitle"), str ("Fitter")), (str ("Weekending"), str ("05/03/2025")),
   (str ("Expenses"), str ("-5"))]

/-- A concrete expected line whose key appears in no actual set. -/
def expC2 : ExpLine :=
  { employeeid := str ("E9"), firstname := str ("Ann"), surname := str ("Bee"),
    description := str ("Std Hrs - Acme - Fitter"), amount := Decimal.ofNat 5,
    rate := Decimal.ofNat 7, weekending := some (str ("2025-03-05")),
    unit := str ("hours"), inputRow := 2, ty := str ("Std Hrs")
  }

/-- A concrete actual output row with no counterpart in an empty
expected set. -/
def rowC2 : Row := Row.ofList
  [(str ("employeeid"), str ("E7")), (str ("firstname"), str ("Ann")),
   (str ("surname"), str ("Bee")), (str ("description"), str ("Std Hrs - Acme - Fitter")),
   (str ("amount"), str ("5")), (str ("rate"), str ("7")),
   (str ("weekending"), str ("2025-03-05"))]

/-- A concrete wrong-output row carrying an overtime line. -/
def rowC7w : Row := Row.ofList
  [(str ("employeeid"), str ("E1")), (str ("firstname"), str ("Ann")),
   (str ("surname"), str ("Bee")), (str ("description"), str ("OT1 Hrs - Acme - Fitter")),
   (str ("amount"), str ("5")), (str ("rate"), str ("20")),
   (str ("weekending"), str ("2025-03-05"))]

/-- A concrete input row whose overtime hours are zero while an overtime
rate is present. -/
def rowC7i : Row := Row.ofList
  [(str ("Candidate RefNo"), str ("E1")), (str ("Weekending"), str ("05/03/2025")),
   (str ("OT1 Hrs"), str ("0")), (str ("OT1 Rate"), str ("15")),
   (str ("Expenses"), str ("3"))]

/-- A concrete wrong-output hours row whose amount and rate look
swapped. -/
def rowC8w : Row := Row.ofList
  [(str ("employeeid"), str ("E1")), (str ("firstname"), str ("Ann")),
   (str ("surname"), str ("Bee")), (str ("description"), str ("Std Hrs - Acme - Fitter")),
   (str ("amount"), str ("150")), (str ("rate"), str ("5")),
   (str ("weekending"), str ("2025-03-05"))]

/-- The first character, when present, is not whitespace. -/
def headOk (l : Str) : Prop :=
  match l.head? with
  | some c => pySpace c = false
  | none => True

/-- The last character, when present, is not whitespace. -/
def lastOk (l : Str) : Prop :=
  match l.getLast? with
  | some c => pySpace c = false
  | none => True

/-- No two consecutive characters are both whitespace. -/
def noTwoSpaces : Str → Prop
  | c1 :: c2 :: rest => ¬(pySpace c1 = true ∧ pySpace c2 = true) ∧ noTwoSpaces (c2 :: rest)
  | _ => True

/-! Digit and character toolkit. -/

theorem dval_digitChar {d : Nat} (h : d < 10) : dval (digitChar d) = d := by
  interval_cases d <;> decide

theorem isDigitChar_digitChar {d : Nat} (h : d < 10) : isDigitChar (digitChar d) = true := by
  interval_cases d <;> decide

theorem isDigitChar_ne {c x : Char} (h : isDigitChar c = true) (hx : isDigitChar x = false) :
    c ≠ x := by
  intro e
  rw [e, hx] at h
  cases h

theorem digit_not_space {c : Char} (h : isDigitChar c = true) : pySpace c = false := by
  by_contra hs
  rw [Bool.not_eq_false, pySpace] at hs
  simp only [Bool.or_eq_true, decide_eq_true_eq] at hs
  rcases hs with ((((h1 | h1) | h1) | h1) | h1) | h1 <;> subst h1 <;> exact absurd h (by decide)

theorem digitsRevAux_eq {fuel n : Nat} (h : n ≤ fuel) :
    digitsRevAux fuel n = Nat.digits 10 n := by
  induction fuel generalizing n with
  | zero =>
    have : n = 0 := Nat.le_zero.mp h
    subst this
    rw [Nat.digits_zero]
    rfl
  | succ f ih =>
    cases n with
    | zero =>
      rw [Nat.digits_zero]
      rfl
    | succ n =>
      rw [digitsRevAux, Nat.digits_def' (by norm_num : (1 : Nat) < 10) (Nat.succ_pos n)]
      have hlt : (n + 1) / 10 < n + 1 := Nat.div_lt_self (Nat.succ_pos n) (by norm_num)
      rw [ih (by omega)]

theorem natDigits_eq (n : Nat) : natDigits n = (Nat.digits 10 n).reverse := by
  rw [natDigits, natDigitsRev, digitsRevAux_eq le_rfl]

theorem digitsToNat_foldl (acc : Nat) (l : List Nat) :
    l.foldl (fun a d => 10 * a + d) acc = acc * 10 ^ l.length + digitsToNat l := by
  induction l generalizing acc with
  | nil => simp [digitsToNat]
  | cons d t ih =>
    simp only [List.foldl_cons, digitsToNat, List.length_cons]
    rw [ih (10 * acc + d), ih (10 * 0 + d)]
    ring

theorem digitsToNat_cons (d : Nat) (t : List Nat) :
    digitsToNat (d :: t) = d * 10 ^ t.length + digitsToNat t := by
  rw [digitsToNat, List.foldl_cons, digitsToNat_foldl]
  ring_nf

theorem digitsToNat_append (a b : List Nat) :
    digitsToNat (a ++ b) = digitsToNat a * 10 ^ b.length + digitsToNat b := by
  rw [digitsToNat, List.foldl_append, digitsToNat_foldl]
  rfl

theorem digitsToNat_replicate_zero (k : Nat) : digitsToNat (List.replicate k 0) = 0 := by
  induction k with
  | zero => rfl
  | succ k ih =>
    rw [List.replicate_succ, digitsToNat_cons, ih]
    ring

theorem digitsToNat_reverse_eq_ofDigits (l : List Nat) :
    digitsToNat l.reverse = Nat.ofDigits 10 l := by
  induction l with
  | nil => rfl
  | cons d t ih =>
    rw [List.reverse_cons, digitsToNat_append, ih, Nat.ofDigits_cons]
    simp [digitsToNat_cons, digitsToNat]
    ring

theorem digitsToNat_natDigits (n : Nat) : digitsToNat (natDigits n) = n := by
  rw [natDigits_eq, digitsToNat_reverse_eq_ofDigits, Nat.ofDigits_digits]

theorem natDigits_lt {n d : Nat} (h : d ∈ natDigits n) : d < 10 := by
  rw [natDigits_eq, List.mem_reverse] at h
  exact Nat.digits_lt_base (by norm_num) h

theorem natDigits_len_le {n k : Nat} (h : n < 10 ^ k) : (natDigits n).length ≤ k := by
  rw [natDigits_eq, List.length_reverse]
  by_cases hn : n = 0
  · subst hn; simp
  · by_contra hlen
    push_neg at hlen
    have h1 : (10 : Nat) ^ (Nat.digits 10 n).length ≤ 10 * n :=
      Nat.base_pow_length_digits_le 10 n (by norm_num) hn
    have h2 : (10 : Nat) ^ (k + 1) ≤ 10 ^ (Nat.digits 10 n).length :=
      Nat.pow_le_pow_right (by norm_num) hlen
    have h3 : (10 : Nat) ^ (k + 1) = 10 * 10 ^ k := by ring
    omega

theorem natStr_ne_nil (n : Nat) : natStr n ≠ [] := by
  rw [natStr]
  split
  · exact List.cons_ne_nil _ _
  · next hn =>
    have : natDigits n ≠ [] := by
      rw [natDigits_eq]
      simp [Nat.digits_ne_nil_iff_ne_zero, hn]
    simp [digitsChars, this]

theorem natStr_all_digits {n : Nat} {c : Char} (h : c ∈ natStr n) : isDigitChar c = true := by
  rw [natStr] at h
  split at h
  · rcases List.mem_singleton.mp h with rfl
    decide
  · rcases List.mem_map.mp h with ⟨d, hd, rfl⟩
    exact isDigitChar_digitChar (natDigits_lt hd)

theorem dval_map_natStr (n : Nat) : (natStr n).map dval = if n = 0 then [0] else natDigits n := by
  rw [natStr]
  split
  · rfl
  · rw [digitsChars, List.map_map]
    apply List.map_congr_left ?_ |>.trans (List.map_id _)
    intro d hd
    exact dval_digitChar (natDigits_lt hd)

theorem digitsToNat_dval_natStr (n : Nat) : digitsToNat ((natStr n).map dval) = n := by
  rw [dval_map_natStr]
  split
  · next h => subst h; rfl
  · exact digitsToNat_natDigits n

theorem natStr_len_le {n k : Nat} (hk : 1 ≤ k) (h : n < 10 ^ k) : (natStr n).length ≤ k := by
  rw [natStr]
  split
  · simpa using hk
  · rw [digitsChars, List.length_map]
    exact natDigits_len_le h

theorem natStr_head_not_sign {n : Nat} {c : Char} (h : c ∈ natStr n) :
    (c = ('+') || c = ('-')) = false := by
  have hd := natStr_all_digits h
  have h1 : c ≠ ('+') := isDigitChar_ne hd (by decide)
  have h2 : c ≠ ('-') := isDigitChar_ne hd (by decide)
  simp [h1, h2]

theorem zfill_digits (w : Nat) {s : Str} (hs : s ≠ [])
    (hd : ∀ c ∈ s, isDigitChar c = true) :
    zfill w s = List.replicate (w - s.length) ('0') ++ s := by
  match s, hs with
  | c :: rest, _ =>
    have hc := hd c (List.mem_cons_self c rest)
    have h1 : c ≠ ('+') := isDigitChar_ne hc (by decide)
    have h2 : c ≠ ('-') := isDigitChar_ne hc (by decide)
    rw [zfill]
    simp [h1, h2]

theorem padNum_eq (w n : Nat) :
    padNum w n = List.replicate (w - (natStr n).length) ('0') ++ natStr n :=
  zfill_digits w (natStr_ne_nil n) (fun _ h => natStr_all_digits h)

theorem padNum_all_digits {w n : Nat} {c : Char} (h : c ∈ padNum w n) :
    isDigitChar c = true := by
  rw [padNum_eq] at h
  rcases List.mem_append.mp h with h | h
  · rcases List.eq_of_mem_replicate h with rfl
    decide
  · exact natStr_all_digits h

theorem padNum_length {w n : Nat} (hw : 1 ≤ w) (h : n < 10 ^ w) :
    (padNum w n).length = w := by
  rw [padNum_eq, List.length_append, List.length_replicate]
  have := natStr_len_le hw h
  omega

theorem digitsToNat_dval_padNum (w n : Nat) : digitsToNat ((padNum w n).map dval) = n := by
  rw [padNum_eq, List.map_append, digitsToNat_append]
  have hrep : List.map dval (List.replicate (w - (natStr n).length) ('0')) =
      List.replicate (w - (natStr n).length) 0 := by
    rw [List.map_replicate]; rfl
  rw [hrep, digitsToNat_replicate_zero, digitsToNat_dval_natStr]
  ring

/-! Lemmas about `takeDigits`. -/

theorem takeDigits_cons_not_digit {c : Char} {rest : Str} (h : isDigitChar c = false) :
    takeDigits (c :: rest) = ([], c :: rest) := by
  rw [takeDigits, h]
  rfl

theorem takeDigits_digits_append {a : Str} (ha : ∀ c ∈ a, isDigitChar c = true) (rest : Str) :
    takeDigits (a ++ rest) = (a.map dval ++ (takeDigits rest).1, (takeDigits rest).2) := by
  induction a with
  | nil => simp
  | cons c t ih =>
    have hc := ha c (List.mem_cons_self c t)
    rw [List.cons_append, takeDigits, hc]
    simp only [if_true]
    rw [ih (fun x hx => ha x (List.mem_cons_of_mem c hx))]
    rfl

theorem takeDigits_all {a : Str} (ha : ∀ c ∈ a, isDigitChar c = true) :
    takeDigits a = (a.map dval, []) := by
  have := takeDigits_digits_append ha []
  simpa [takeDigits] using this

/-! Value identities of the decimal comparisons. -/

theorem Decimal.eqv_refl (a : Decimal) : Decimal.eqv a a := rfl

theorem Decimal.eqv_symm {a b : Decimal} (h : Decimal.eqv a b) : Decimal.eqv b a := h.symm

theorem Decimal.eqv_trans {a b c : Decimal} (h1 : Decimal.eqv a b) (h2 : Decimal.eqv b c) :
    Decimal.eqv a c := by
  unfold Decimal.eqv at h1 h2 ⊢
  have h3 : a.num * 10 ^ c.exp * 10 ^ b.exp = c.num * 10 ^ a.exp * 10 ^ b.exp := by
    linear_combination 10 ^ c.exp * h1 + h2 * 10 ^ a.exp
  exact mul_right_cancel₀ (pow_ne_zero b.exp (by norm_num : (10 : Int) ≠ 0)) h3

theorem Decimal.eqv_zero_iff {a : Decimal} : Decimal.eqv a Decimal.zero ↔ a.num = 0 := by
  unfold Decimal.eqv Decimal.zero
  constructor
  · intro h
    have h10 : (10 : Int) ^ a.exp ≠ 0 := pow_ne_zero _ (by norm_num)
    simpa [h10] using h
  · intro h
    simp [h]

theorem Decimal.lt_zero_iff {a : Decimal} : Decimal.lt Decimal.zero a ↔ 0 < a.num := by
  unfold Decimal.lt Decimal.zero
  simp

/-! Round trip of formatting and parsing. -/

theorem reduceNat_spec (e m : Nat) :
    (reduceNat m e).1 * 10 ^ e = m * 10 ^ (reduceNat m e).2 := by
  induction e generalizing m with
  | zero => rfl
  | succ e ih =>
    rw [reduceNat]
    split
    · next hmod =>
      have hdiv : 10 * (m / 10) = m := by omega
      have := ih (m / 10)
      calc (reduceNat (m / 10) e).1 * 10 ^ (e + 1)
          = (reduceNat (m / 10) e).1 * 10 ^ e * 10 := by ring
        _ = m / 10 * 10 ^ (reduceNat (m / 10) e).2 * 10 := by rw [this]
        _ = 10 * (m / 10) * 10 ^ (reduceNat (m / 10) e).2 := by ring
        _ = m * 10 ^ (reduceNat (m / 10) e).2 := by rw [hdiv]
    · rfl

theorem natStr_head_digit (n : Nat) :
    ∃ c cs, natStr n = c :: cs ∧ isDigitChar c = true := by
  cases hs : natStr n with
  | nil => exact absurd hs (natStr_ne_nil n)
  | cons c cs =>
    refine ⟨c, cs, rfl, ?_⟩
    apply natStr_all_digits (n := n)
    rw [hs]
    exact List.mem_cons_self c cs

theorem parseExpPart_nil : parseExpPart [] = some 0 := rfl

theorem parseCoeffExp_core (m e : Nat) :
    parseCoeffExp
      (if e = 0 then natStr m
       else natStr (m / 10 ^ e) ++ ('.') :: padNum e (m % 10 ^ e)) = some (m, -(e : Int)) := by
  split
  · next he =>
    subst he
    rw [parseCoeffExp]
    have ht := takeDigits_all (a := natStr m) (fun c h => natStr_all_digits h)
    rw [ht]
    simp only []
    have hne : (natStr m).map dval ≠ [] := by
      simp [natStr_ne_nil m]
    simp [hne, parseExpPart_nil, digitsToNat_dval_natStr]
  · next he =>
    have he1 : 1 ≤ e := Nat.one_le_iff_ne_zero.mpr he
    rw [parseCoeffExp]
    have hdot : takeDigits (('.') :: padNum e (m % 10 ^ e)) = ([], ('.') :: padNum e (m % 10 ^ e)) :=
      takeDigits_cons_not_digit (by decide)
    have ht := takeDigits_digits_append (a := natStr (m / 10 ^ e))
      (fun c h => natStr_all_digits h) (('.') :: padNum e (m % 10 ^ e))
    rw [hdot] at ht
    simp only [List.append_nil] at ht
    rw [ht]
    simp only []
    have hpad := takeDigits_all (a := padNum e (m % 10 ^ e)) (fun c h => padNum_all_digits h)
    rw [hpad]
    have hne : (natStr (m / 10 ^ e)).map dval ≠ [] := by
      simp [natStr_ne_nil]
    have hmod : m % 10 ^ e < 10 ^ e := Nat.mod_lt _ (pow_pos (by norm_num) e)
    have hlen : ((padNum e (m % 10 ^ e)).map dval).length = e := by
      rw [List.length_map, padNum_length he1 hmod]
    simp only [hne, false_and, if_false, parseExpPart_nil]
    rw [digitsToNat_append, digitsToNat_dval_natStr, digitsToNat_dval_padNum, hlen,
      Nat.div_add_mod']
    simp

theorem mkDec_neg_exp (neg : Bool) (m e : Nat) :
    mkDec neg m (-(e : Int)) = ⟨(if neg then -(m : Int) else (m : Int)), e⟩ := by
  cases e with
  | zero => simp [mkDec]
  | succ e =>
    rw [mkDec]
    have hneg : ¬ (0 ≤ -((e + 1 : Nat) : Int)) := by
      push_cast
      omega
    rw [if_neg hneg]
    congr 1

theorem parseNumericString_core (P : Prop) [Decidable P] (m e : Nat) :
    parseNumericString ((if P then [('-')] else []) ++
      (if e = 0 then natStr m
       else natStr (m / 10 ^ e) ++ ('.') :: padNum e (m % 10 ^ e))) =
    some ⟨(if P then -(m : Int) else (m : Int)), e⟩ := by
  have hA := parseCoeffExp_core m e
  have hB : ∃ c cs,
      (if e = 0 then natStr m
       else natStr (m / 10 ^ e) ++ ('.') :: padNum e (m % 10 ^ e)) = c :: cs ∧
      isDigitChar c = true := by
    split
    · exact natStr_head_digit m
    · obtain ⟨c, cs, h1, h2⟩ := natStr_head_digit (m / 10 ^ e)
      exact ⟨c, cs ++ ('.') :: padNum e (m % 10 ^ e), by rw [h1]; rfl, h2⟩
  obtain ⟨c, cs, hcs, hc⟩ := hB
  rw [hcs] at hA ⊢
  by_cases hP : P
  · rw [if_pos hP, if_pos hP]
    show parseNumericString (('-') :: c :: cs) = _
    rw [parseNumericString]
    rw [if_neg (by decide : ¬ ('-') = ('+')), if_pos rfl, hA]
    simp [mkDec_neg_exp]
  · rw [if_neg hP, if_neg hP]
    show parseNumericString (c :: cs) = _
    rw [parseNumericString]
    rw [if_neg (isDigitChar_ne hc (by decide)), if_neg (isDigitChar_ne hc (by decide)), hA]
    simp [mkDec_neg_exp]

theorem parseNumericString_fmt (d : Decimal) :
    parseNumericString (fmt_decimal d) =
      some ⟨(if d.num < 0 then -(((reduceNat d.num.natAbs d.exp).1 : Nat) : Int)
             else (((reduceNat d.num.natAbs d.exp).1 : Nat) : Int)),
            (reduceNat d.num.natAbs d.exp).2⟩ := by
  simp only [fmt_decimal]
  exact parseNumericString_core (d.num < 0) (reduceNat d.num.natAbs d.exp).1
    (reduceNat d.num.natAbs d.exp).2

theorem reduced_eqv (num : Int) (exp : Nat) :
    Decimal.eqv
      ⟨(if num < 0 then -(((reduceNat num.natAbs exp).1 : Nat) : Int)
        else (((reduceNat num.natAbs exp).1 : Nat) : Int)),
       (reduceNat num.natAbs exp).2⟩ ⟨num, exp⟩ := by
  have hs := reduceNat_spec exp num.natAbs
  have hc : ((reduceNat num.natAbs exp).1 : Int) * 10 ^ exp =
      (num.natAbs : Int) * 10 ^ (reduceNat num.natAbs exp).2 := by
    exact_mod_cast hs
  unfold Decimal.eqv
  dsimp only
  split
  · next h =>
    have habs : ((num.natAbs : Nat) : Int) = -num := by omega
    rw [habs] at hc
    linear_combination -hc
  · next h =>
    have habs : ((num.natAbs : Nat) : Int) = num := by omega
    rw [habs] at hc
    linear_combination hc

theorem fmt_chars {d : Decimal} {c : Char} (hc : c ∈ fmt_decimal d) :
    isDigitChar c = true ∨ c = ('-') ∨ c = ('.') := by
  simp only [fmt_decimal] at hc
  rcases List.mem_append.mp hc with h | h
  · split at h
    · rcases List.mem_singleton.mp h with rfl
      right; left; rfl
    · cases h
  · split at h
    · left; exact natStr_all_digits h
    · rcases List.mem_append.mp h with h2 | h2
      · left; exact natStr_all_digits h2
      · rcases List.mem_cons.mp h2 with rfl | h3
        · right; right; rfl
        · left; exact padNum_all_digits h3

theorem fmt_no_space {d : Decimal} : ∀ c ∈ fmt_decimal d, pySpace c = false := by
  intro c hc
  rcases fmt_chars hc with h | rfl | rfl
  · exact digit_not_space h
  · decide
  · decide

theorem fmt_ne_nil (d : Decimal) : fmt_decimal d ≠ [] := by
  simp only [fmt_decimal]
  intro h
  rcases List.append_eq_nil.mp h with ⟨_, h2⟩
  split at h2
  · exact natStr_ne_nil _ h2
  · rcases List.append_eq_nil.mp h2 with ⟨h3, _⟩
    exact natStr_ne_nil _ h3

theorem dropWhile_eq_self {p : Char → Bool} :
    ∀ {l : Str}, (∀ c ∈ l, p c = false) → l.dropWhile p = l
  | [], _ => rfl
  | c :: t, h => by
    rw [List.dropWhile_cons, h c (List.mem_cons_self c t)]
    simp

theorem pyStrip_eq_self {l : Str} (h : ∀ c ∈ l, pySpace c = false) : pyStrip l = l := by
  rw [pyStrip, dropWhile_eq_self h,
    dropWhile_eq_self (fun c hc => h c (List.mem_reverse.mp hc)), List.reverse_reverse]

theorem fmt_parse_eqv (d : Decimal) : Decimal.eqv (parse_decimal (fmt_decimal d)) d := by
  have hstrip : pyStrip (fmt_decimal d) = fmt_decimal d := pyStrip_eq_self fmt_no_space
  have hcomma : (fmt_decimal d).filter (fun c => c ≠ (',')) = fmt_decimal d := by
    rw [List.filter_eq_self]
    intro a ha
    simp only [decide_eq_true_eq]
    rcases fmt_chars ha with h | rfl | rfl
    · exact isDigitChar_ne h (by decide)
    · decide
    · decide
  have hunder : (fmt_decimal d).filter (fun c => c ≠ ('_')) = fmt_decimal d := by
    rw [List.filter_eq_self]
    intro a ha
    simp only [decide_eq_true_eq]
    rcases fmt_chars ha with h | rfl | rfl
    · exact isDigitChar_ne h (by decide)
    · decide
    · decide
  simp only [parse_decimal, hstrip, if_neg (fmt_ne_nil d), hcomma, decimalOfString, hunder,
    parseNumericString_fmt]
  exact reduced_eqv d.num d.exp

/-! Whitespace normalization lemmas. -/

theorem pySpace_ite (c : Char) : pySpace (if pySpace c then (' ') else c) = pySpace c := by
  by_cases h : pySpace c = true
  · rw [if_pos h, h]
    decide
  · rw [if_neg h]

theorem noTwoSpaces_cons_cons (a b : Char) (l : Str) :
    noTwoSpaces (a :: b :: l) ↔
      ¬(pySpace a = true ∧ pySpace b = true) ∧ noTwoSpaces (b :: l) := Iff.rfl

theorem collapse_ne_nil : ∀ {l : Str}, l ≠ [] → collapse l ≠ [] := by
  intro l
  induction l with
  | nil => intro h; exact absurd rfl h
  | cons c1 t ih =>
    intro _
    cases t with
    | nil =>
      rw [collapse]
      split <;> exact List.cons_ne_nil _ _
    | cons c2 r =>
      rw [collapse]
      split
      · exact ih (List.cons_ne_nil _ _)
      · exact List.cons_ne_nil _ _

theorem collapse_head? : ∀ (l : Str),
    (collapse l).head? = l.head?.map (fun c => if pySpace c then (' ') else c) := by
  intro l
  induction l with
  | nil => rfl
  | cons c1 t ih =>
    cases t with
    | nil =>
      rw [collapse]
      by_cases h : pySpace c1 = true <;> simp [h]
    | cons c2 r =>
      rw [collapse]
      by_cases h : (pySpace c1 && pySpace c2) = true
      · rw [if_pos h, ih]
        rcases Bool.and_eq_true_iff.mp h with ⟨h1, h2⟩
        simp [h1, h2]
      · rw [if_neg h]
        simp

theorem collapse_mem : ∀ {l : Str} {c : Char}, c ∈ collapse l → c = (' ') ∨ pySpace c = false := by
  intro l
  induction l with
  | nil => intro c h; cases h
  | cons c1 t ih =>
    intro c h
    cases t with
    | nil =>
      rw [collapse] at h
      split at h
      · left; exact (List.mem_singleton.mp h)
      · next hc =>
        right
        rcases List.mem_singleton.mp h with rfl
        exact Bool.not_eq_true _ |>.mp hc
    | cons c2 r =>
      rw [collapse] at h
      split at h
      · exact ih h
      · rcases List.mem_cons.mp h with rfl | h2
        · by_cases hs : pySpace c1 = true
          · left; rw [if_pos hs]
          · right; rw [if_neg hs]
            exact Bool.not_eq_true _ |>.mp hs
        · exact ih h2

theorem noTwoSpaces_collapse : ∀ (l : Str), noTwoSpaces (collapse l) := by
  intro l
  induction l with
  | nil => trivial
  | cons c1 t ih =>
    cases t with
    | nil =>
      rw [collapse]
      split <;> trivial
    | cons c2 r =>
      rw [collapse]
      by_cases h : (pySpace c1 && pySpace c2) = true
      · rw [if_pos h]; exact ih
      · rw [if_neg h]
        cases hC : collapse (c2 :: r) with
        | nil => trivial
        | cons y ys =>
          rw [hC] at ih
          refine (noTwoSpaces_cons_cons _ _ _).mpr ⟨?_, ih⟩
          rintro ⟨hx, hy⟩
          rw [pySpace_ite] at hx
          have h1 := collapse_head? (c2 :: r)
          rw [hC] at h1
          simp only [List.head?_cons, Option.map_some'] at h1
          have hy2 : pySpace c2 = true := by
            have : y = if pySpace c2 then (' ') else c2 := by
              injection h1
            rw [this, pySpace_ite] at hy
            exact hy
          rw [Bool.and_eq_true_iff] at h
          exact h ⟨hx, hy2⟩

theorem collapse_eq_self : ∀ {l : Str},
    noTwoSpaces l → (∀ c ∈ l, pySpace c = true → c = (' ')) → collapse l = l := by
  intro l
  induction l with
  | nil => intro _ _; rfl
  | cons c1 t ih =>
    intro h2 hm
    cases t with
    | nil =>
      rw [collapse]
      by_cases h : pySpace c1 = true
      · rw [if_pos h, hm c1 (List.mem_cons_self _ _) h]
      · rw [if_neg h]
    | cons c2 r =>
      have hp := (noTwoSpaces_cons_cons c1 c2 r).mp h2
      rw [collapse]
      have hnot : ¬(pySpace c1 && pySpace c2) = true := by
        rw [Bool.and_eq_true_iff]
        exact hp.1
      rw [if_neg hnot]
      congr 1
      · by_cases h : pySpace c1 = true
        · rw [if_pos h]
          exact (hm c1 (List.mem_cons_self _ _) h).symm
        · rw [if_neg h]
      · exact ih hp.2 (fun c hc hs => hm c (List.mem_cons_of_mem _ hc) hs)

theorem dropWhile_head_false {p : Char → Bool} :
    ∀ {l : Str} {c : Char} {cs : Str}, l.dropWhile p = c :: cs → p c = false := by
  intro l
  induction l with
  | nil => intro c cs h; cases h
  | cons a t ih =>
    intro c cs h
    rw [List.dropWhile_cons] at h
    split at h
    · exact ih h
    · next hp =>
      injection h with h1 _
      subst h1
      exact Bool.not_eq_true _ |>.mp hp

theorem dropWhile_getLast? {p : Char → Bool} :
    ∀ {l : Str}, l.dropWhile p ≠ [] → (l.dropWhile p).getLast? = l.getLast? := by
  intro l
  induction l with
  | nil => intro h; exact absurd rfl h
  | cons a t ih =>
    intro h
    rw [List.dropWhile_cons] at h ⊢
    by_cases hp : p a = true
    · rw [if_pos hp] at h ⊢
      cases t with
      | nil => exact absurd rfl h
      | cons b r =>
        rw [List.getLast?_cons_cons]
        exact ih h
    · rw [if_neg hp]

theorem pyStrip_ne_nil_of {l : Str} {c : Char} {cs : Str} (h : pyStrip l = c :: cs) :
    (l.dropWhile pySpace).reverse.dropWhile pySpace ≠ [] := by
  intro h0
  rw [pyStrip, h0] at h
  cases h

theorem pyStrip_head_false {l : Str} {c : Char} {cs : Str} (h : pyStrip l = c :: cs) :
    pySpace c = false := by
  have hB := pyStrip_ne_nil_of h
  have h1 : (pyStrip l).head? = some c := by rw [h]; rfl
  rw [pyStrip, List.head?_reverse] at h1
  rw [dropWhile_getLast? hB, List.getLast?_reverse] at h1
  cases hA : (l.dropWhile pySpace) with
  | nil => rw [hA] at h1; cases h1
  | cons a as =>
    rw [hA] at h1
    simp only [List.head?_cons, Option.some_inj] at h1
    subst h1
    exact dropWhile_head_false hA

theorem pyStrip_last_false {l : Str} {c : Char} (h : (pyStrip l).getLast? = some c) :
    pySpace c = false := by
  rw [pyStrip, List.getLast?_reverse] at h
  cases hB : (l.dropWhile pySpace).reverse.dropWhile pySpace with
  | nil => rw [hB] at h; cases h
  | cons b bs =>
    rw [hB] at h
    simp only [List.head?_cons, Option.some_inj] at h
    subst h
    exact dropWhile_head_false hB

theorem pyStrip_eq_self_of_ends {l : Str} (hh : headOk l) (hl : lastOk l) :
    pyStrip l = l := by
  rw [pyStrip]
  have h1 : l.dropWhile pySpace = l := by
    cases l with
    | nil => rfl
    | cons c t =>
      have hc : pySpace c = false := hh
      rw [List.dropWhile_cons, hc]
      simp
  rw [h1]
  have h2 : l.reverse.dropWhile pySpace = l.reverse := by
    cases hr : l.reverse with
    | nil => rfl
    | cons c t =>
      have hg : l.getLast? = some c := by
        rw [← List.head?_reverse, hr]
        rfl
      have hc : pySpace c = false := by
        unfold lastOk at hl
        rw [hg] at hl
        exact hl
      rw [List.dropWhile_cons, hc]
      simp
  rw [h2, List.reverse_reverse]

theorem norm_spaces_headOk (s : Str) : headOk (norm_spaces s) := by
  unfold headOk
  cases hh : (norm_spaces s).head? with
  | none => trivial
  | some c =>
    rw [norm_spaces, collapse_head?] at hh
    cases hA : (pyStrip s).head? with
    | none => rw [hA] at hh; cases hh
    | some c0 =>
      rw [hA] at hh
      simp only [Option.map_some', Option.some_inj] at hh
      cases hA2 : pyStrip s with
      | nil => rw [hA2] at hA; cases hA
      | cons a as =>
        rw [hA2] at hA
        simp only [List.head?_cons, Option.some_inj] at hA
        subst hA
        have h5 := pyStrip_head_false hA2
        show pySpace c = false
        rw [← hh, if_neg (by rw [h5]; exact Bool.false_ne_true)]
        exact h5

theorem collapse_getLast? : ∀ (l : Str),
    (collapse l).getLast? = l.getLast?.map (fun c => if pySpace c then (' ') else c) := by
  intro l
  induction l with
  | nil => rfl
  | cons c1 t ih =>
    cases t with
    | nil =>
      rw [collapse]
      by_cases h : pySpace c1 = true <;> simp [h]
    | cons c2 r =>
      rw [collapse]
      by_cases h : (pySpace c1 && pySpace c2) = true
      · rw [if_pos h, ih, List.getLast?_cons_cons]
      · rw [if_neg h]
        cases hC : collapse (c2 :: r) with
        | nil => exact absurd hC (collapse_ne_nil (List.cons_ne_nil _ _))
        | cons y ys =>
          rw [List.getLast?_cons_cons, ← hC, ih, List.getLast?_cons_cons]

theorem norm_spaces_lastOk (s : Str) : lastOk (norm_spaces s) := by
  unfold lastOk
  cases hh : (norm_spaces s).getLast? with
  | none => trivial
  | some c =>
    rw [norm_spaces, collapse_getLast?] at hh
    cases hA : (pyStrip s).getLast? with
    | none => rw [hA] at hh; cases hh
    | some c0 =>
      rw [hA] at hh
      simp only [Option.map_some', Option.some_inj] at hh
      have h0 := pyStrip_last_false hA
      show pySpace c = false
      rw [← hh, if_neg (by rw [h0]; exact Bool.false_ne_true)]
      exact h0

theorem norm_spaces_idem (s : Str) : norm_spaces (norm_spaces s) = norm_spaces s := by
  conv_lhs => rw [norm_spaces]
  rw [pyStrip_eq_self_of_ends (norm_spaces_headOk s) (norm_spaces_lastOk s)]
  rw [norm_spaces]
  exact collapse_eq_self (noTwoSpaces_collapse _)
    (fun c hc hs => (collapse_mem hc).resolve_right (fun h => by rw [h] at hs; cases hs))

/-! Date parsing lemmas. -/

theorem splitSlash_no_slash : ∀ {a : Str}, ('/') ∉ a → splitSlash a = [a] := by
  intro a
  induction a with
  | nil => intro _; rfl
  | cons c t ih =>
    intro h
    have hc : ¬ c = ('/') := fun e => h (e ▸ List.mem_cons_self c t)
    rw [splitSlash, if_neg hc, ih (fun hm => h (List.mem_cons_of_mem c hm))]

theorem splitSlash_append {a rest : Str} (ha : ('/') ∉ a) :
    splitSlash (a ++ ('/') :: rest) = a :: splitSlash rest := by
  induction a with
  | nil =>
    rw [List.nil_append, splitSlash, if_pos rfl]
  | cons c t ih =>
    have hc : ¬ c = ('/') := fun e => ha (e ▸ List.mem_cons_self c t)
    rw [List.cons_append, splitSlash, if_neg hc, ih (fun hm => ha (List.mem_cons_of_mem c hm))]

theorem splitSlash_three {a b c : Str} (ha : ('/') ∉ a) (hb : ('/') ∉ b) (hc : ('/') ∉ c) :
    splitSlash (a ++ ('/') :: (b ++ ('/') :: c)) = [a, b, c] := by
  rw [splitSlash_append ha, splitSlash_append hb, splitSlash_no_slash hc]

theorem natStr_no_slash {n : Nat} : ('/') ∉ natStr n := by
  intro h
  exact isDigitChar_ne (natStr_all_digits h) (by decide) rfl

theorem padNum_no_slash {w n : Nat} : ('/') ∉ padNum w n := by
  intro h
  exact isDigitChar_ne (padNum_all_digits h) (by decide) rfl

theorem allDigits_natStr (n : Nat) : allDigits (natStr n) = true := by
  rw [allDigits, List.all_eq_true]
  exact fun c h => natStr_all_digits h

theorem allDigits_padNum (w n : Nat) : allDigits (padNum w n) = true := by
  rw [allDigits, List.all_eq_true]
  exact fun c h => padNum_all_digits h

theorem daysInMonth_le_31 (y m : Nat) : daysInMonth y m ≤ 31 := by
  rw [daysInMonth]
  split
  · split <;> norm_num
  · split <;> norm_num

theorem dayOfStr_natStr {d : Nat} (h1 : 1 ≤ d) (h2 : d ≤ 31) :
    dayOfStr (natStr d) = some d := by
  rw [dayOfStr]
  have hlen1 : 1 ≤ (natStr d).length :=
    List.length_pos.mpr (natStr_ne_nil d)
  have hlen2 : (natStr d).length ≤ 2 := natStr_len_le (by norm_num) (by omega : d < 10 ^ 2)
  rw [if_pos ⟨allDigits_natStr d, hlen1, hlen2⟩]
  rw [digitsToNat_dval_natStr, if_pos ⟨h1, h2⟩]

theorem monthOfStr_natStr {m : Nat} (h1 : 1 ≤ m) (h2 : m ≤ 12) :
    monthOfStr (natStr m) = some m := by
  rw [monthOfStr]
  have hlen1 : 1 ≤ (natStr m).length :=
    List.length_pos.mpr (natStr_ne_nil m)
  have hlen2 : (natStr m).length ≤ 2 := natStr_len_le (by norm_num) (by omega : m < 10 ^ 2)
  rw [if_pos ⟨allDigits_natStr m, hlen1, hlen2⟩]
  rw [digitsToNat_dval_natStr, if_pos ⟨h1, h2⟩]

theorem padNum_length4 {y : Nat} (h : y ≤ 9999) : (padNum 4 y).length = 4 :=
  padNum_length (by norm_num) (by omega)

theorem padNum_length2 {y : Nat} (h : y ≤ 99) : (padNum 2 y).length = 2 :=
  padNum_length (by norm_num) (by omega)

theorem year4Of_padNum {y : Nat} (h : y ≤ 9999) : year4Of (padNum 4 y) = some y := by
  rw [year4Of, if_pos ⟨allDigits_padNum 4 y, padNum_length4 h⟩, digitsToNat_dval_padNum]

theorem year4Of_padNum2 {y : Nat} (h : y ≤ 99) : year4Of (padNum 2 y) = none := by
  rw [year4Of, if_neg]
  rintro ⟨_, hlen⟩
  rw [padNum_length2 h] at hlen
  cases hlen

theorem year2Of_padNum {y : Nat} (h : y ≤ 99) :
    year2Of (padNum 2 y) = some (if y ≤ 68 then 2000 + y else 1900 + y) := by
  rw [year2Of, if_pos ⟨allDigits_padNum 2 y, padNum_length2 h⟩, digitsToNat_dval_padNum]

theorem dmY_no_space {d m : Nat} {tail : Str} (ht : ∀ c ∈ tail, pySpace c = false) :
    ∀ c ∈ natStr d ++ ('/') :: (natStr m ++ ('/') :: tail), pySpace c = false := by
  intro c hc
  rcases List.mem_append.mp hc with h | h
  · exact digit_not_space (natStr_all_digits h)
  · rcases List.mem_cons.mp h with rfl | h
    · decide
    · rcases List.mem_append.mp h with h | h
      · exact digit_not_space (natStr_all_digits h)
      · rcases List.mem_cons.mp h with rfl | h
        · decide
        · exact ht c h

theorem parse_weekending_dmY {d m y : Nat} (hd1 : 1 ≤ d) (hdm : d ≤ daysInMonth y m)
    (hm1 : 1 ≤ m) (hm2 : m ≤ 12) (hy1 : 1 ≤ y) (hy2 : y ≤ 9999) :
    parse_weekending (natStr d ++ ('/') :: (natStr m ++ ('/') :: padNum 4 y)) =
      isoOfYMD y m d := by
  have hstrip := pyStrip_eq_self
    (dmY_no_space (fun c h => digit_not_space (padNum_all_digits h)))
    (l := natStr d ++ ('/') :: (natStr m ++ ('/') :: padNum 4 y))
  have hne : natStr d ++ ('/') :: (natStr m ++ ('/') :: padNum 4 y) ≠ [] := by
    intro h
    rcases List.append_eq_nil.mp h with ⟨h1, _⟩
    exact natStr_ne_nil d h1
  have hmatch : matchDMY4 (natStr d ++ ('/') :: (natStr m ++ ('/') :: padNum 4 y)) =
      some (d, m, y) := by
    rw [matchDMY4, splitSlash_three natStr_no_slash natStr_no_slash padNum_no_slash]
    simp only [dayOfStr_natStr hd1 (le_trans hdm (daysInMonth_le_31 y m)),
      monthOfStr_natStr hm1 hm2, year4Of_padNum hy2]
    simp [hy1, hdm]
  simp only [parse_weekending, hstrip, if_neg hne, hmatch]

theorem parse_weekending_dmy2 {d m yy : Nat} (hd1 : 1 ≤ d)
    (hdm : d ≤ daysInMonth (if yy ≤ 68 then 2000 + yy else 1900 + yy) m)
    (hm1 : 1 ≤ m) (hm2 : m ≤ 12) (hyy : yy ≤ 99) :
    parse_weekending (natStr d ++ ('/') :: (natStr m ++ ('/') :: padNum 2 yy)) =
      isoOfYMD (if yy ≤ 68 then 2000 + yy else 1900 + yy) m d := by
  have hstrip := pyStrip_eq_self
    (dmY_no_space (fun c h => digit_not_space (padNum_all_digits h)))
    (l := natStr d ++ ('/') :: (natStr m ++ ('/') :: padNum 2 yy))
  have hne : natStr d ++ ('/') :: (natStr m ++ ('/') :: padNum 2 yy) ≠ [] := by
    intro h
    rcases List.append_eq_nil.mp h with ⟨h1, _⟩
    exact natStr_ne_nil d h1
  have hsplit := splitSlash_three (a := natStr d) (b := natStr m) (c := padNum 2 yy)
    natStr_no_slash natStr_no_slash padNum_no_slash
  have hmatch4 : matchDMY4 (natStr d ++ ('/') :: (natStr m ++ ('/') :: padNum 2 yy)) =
      none := by
    rw [matchDMY4, hsplit]
    simp only [dayOfStr_natStr hd1 (le_trans hdm (daysInMonth_le_31 _ m)),
      monthOfStr_natStr hm1 hm2, year4Of_padNum2 hyy]
  have hmatch2 : matchDMY2 (natStr d ++ ('/') :: (natStr m ++ ('/') :: padNum 2 yy)) =
      some (d, m, if yy ≤ 68 then 2000 + yy else 1900 + yy) := by
    rw [matchDMY2, hsplit]
    simp only [dayOfStr_natStr hd1 (le_trans hdm (daysInMonth_le_31 _ m)),
      monthOfStr_natStr hm1 hm2, year2Of_padNum hyy]
    simp [hdm]
  simp only [parse_weekending, hstrip, if_neg hne, hmatch4, hmatch2]

theorem parse_weekending_unmatched {s : Str} (h4 : matchDMY4 (pyStrip s) = none)
    (h2 : matchDMY2 (pyStrip s) = none) (hiso : isoParse (pyStrip s) = none) :
    parse_weekending s = pyStrip s := by
  simp only [parse_weekending, h4, h2, hiso]
  split
  · next h => rw [h]
  · rfl

/-! Claim theorems for the normalizer and the converter date logic. -/

/-- C5: for every decimal value, parsing the formatted rendering returns a
numerically equal decimal — the format and parse pair round-trips with
exact decimal equality. -/
theorem c5_decimal_roundtrip (d : Decimal) :
    Decimal.eqv (parse_decimal (fmt_decimal d)) d :=
  fmt_parse_eqv d

/-- C9: norm_spaces is idempotent, and its result never has leading or
trailing whitespace nor two consecutive whitespace characters. -/
theorem c9_norm_spaces_props (s : Str) :
    norm_spaces (norm_spaces s) = norm_spaces s ∧ headOk (norm_spaces s) ∧
      lastOk (norm_spaces s) ∧ noTwoSpaces (norm_spaces s) :=
  ⟨norm_spaces_idem s, norm_spaces_headOk s, norm_spaces_lastOk s,
    noTwoSpaces_collapse (pyStrip s)⟩

/-- C6: parse_decimal is total by construction, returns zero for empty
input and for any text the numeric grammar rejects after comma removal
(such as abc), and strips thousands-separator commas, so the text
1,234.5 parses to the value 1234.5. -/
theorem c6_parse_decimal_defaults (s : Str) :
    (decimalOfString ((pyStrip s).filter (fun c => c ≠ (','))) = none →
      parse_decimal s = Decimal.zero) ∧
    parse_decimal (str ("")) = Decimal.zero ∧
    parse_decimal (str ("abc")) = Decimal.zero ∧
    Decimal.eqv (parse_decimal (str ("1,234.5"))) ⟨12345, 1⟩ := by
  refine ⟨?_, by decide, by decide, by decide⟩
  intro h
  simp only [parse_decimal]
  split
  · rfl
  · rw [h]

/-- C6 witness: the text abc is rejected by the grammar and parses to
zero through the theorem. -/
theorem c6_witness :
    decimalOfString ((pyStrip (str ("abc"))).filter (fun c => c ≠ (','))) = none ∧
      parse_decimal (str ("abc")) = Decimal.zero :=
  ⟨by decide, (c6_parse_decimal_defaults (str ("abc"))).1 (by decide)⟩

/-- C4 counterexample: the two-digit year text 69 expands to 1969, not
into the 2000s as the claim states. -/
theorem c4_counterexample :
    parse_weekending (str ("05/03/69")) = str ("1969-03-05") ∧
      parse_weekending (str ("05/03/69")) ≠ str ("2069-03-05") := by
  decide

/-- C4 amended: parse_weekending tries day/month/four-digit-year first,
then day/month/two-digit-year where years 00 to 68 expand to 2000 to 2068
and years 69 to 99 expand to 1969 to 1999 (POSIX windowing, not always
the 2000s), then ISO passthrough, and returns the stripped original text
when nothing matches. -/
theorem c4_amended :
    (∀ d m y : Nat, 1 ≤ d → d ≤ daysInMonth y m → 1 ≤ m → m ≤ 12 → 1 ≤ y → y ≤ 9999 →
      parse_weekending (natStr d ++ ('/') :: (natStr m ++ ('/') :: padNum 4 y)) =
        isoOfYMD y m d) ∧
    (∀ d m yy : Nat, 1 ≤ d → d ≤ daysInMonth (if yy ≤ 68 then 2000 + yy else 1900 + yy) m →
      1 ≤ m → m ≤ 12 → yy ≤ 99 →
      parse_weekending (natStr d ++ ('/') :: (natStr m ++ ('/') :: padNum 2 yy)) =
        isoOfYMD (if yy ≤ 68 then 2000 + yy else 1900 + yy) m d) ∧
    parse_weekending (str ("2024-12-31")) = str ("2024-12-31") ∧
    parse_weekending (str ("not a date")) = str ("not a date") ∧
    (∀ s : Str, matchDMY4 (pyStrip s) = none → matchDMY2 (pyStrip s) = none →
      isoParse (pyStrip s) = none → parse_weekending s = pyStrip s) := by
  refine ⟨?_, ?_, by decide, by decide, ?_⟩
  · intro d m y hd1 hdm hm1 hm2 hy1 hy2
    exact parse_weekending_dmY hd1 hdm hm1 hm2 hy1 hy2
  · intro d m yy hd1 hdm hm1 hm2 hyy
    exact parse_weekending_dmy2 hd1 hdm hm1 hm2 hyy
  · intro s h4 h2 hiso
    exact parse_weekending_unmatched h4 h2 hiso

/-- C4 witness: the amended theorem applied to 5, 3 and the two-digit
year 25 produces the 2025 ISO date. -/
theorem c4_witness :
    parse_weekending (natStr 5 ++ ('/') :: (natStr 3 ++ ('/') :: padNum 2 25)) =
      isoOfYMD (if 25 ≤ 68 then 2000 + 25 else 1900 + 25) 3 5 :=
  c4_amended.2.1 5 3 25 (by decide) (by decide) (by decide) (by decide) (by decide)

/-- C10 counterexample: an input with three slash-separated parts that
also passes the length-ten dash test is passed through unchanged rather
than reassembled. -/
theorem c10_counterexample :
    parse_date (str ("2024-1/2/3")) = some (str ("2024-1/2/3")) ∧
      parse_date (str ("2024-1/2/3")) ≠ some (str ("3-02-2024-1")) := by
  decide

/-- C10 amended: parse_date returns none for empty input, and for any
nonempty input that does not hit the length-ten dash passthrough test and
whose stripped text splits into exactly three slash-separated parts it
reassembles year-month-day with zfill padding and a blanket 20 on
two-character years, without validating the parts. -/
theorem c10_amended :
    parse_date (str ("")) = none ∧
    (∀ s ds ms ys : Str, s ≠ [] →
      ¬((pyStrip s).contains ('-') = true ∧ (pyStrip s).length = 10 ∧
        (pyStrip s)[4]? = some ('-')) →
      splitSlash (pyStrip s) = [ds, ms, ys] →
      parse_date s = some ((if ys.length = 2 then ('2') :: ('0') :: ys else ys) ++
        ('-') :: (zfill 2 ms ++ ('-') :: zfill 2 ds))) ∧
    parse_date (str ("99/99/2024")) = some (str ("2024-99-99")) := by
  refine ⟨by decide, ?_, by decide⟩
  intro s ds ms ys hne hiso hsplit
  simp only [parse_date, if_neg hne, if_neg hiso, hsplit]
  simp [List.append_assoc, List.cons_append]

/-- C3: for a row passing the validity gate, the converter emits the
expenses line exactly when expenses is nonzero (sign included, amount
cell exactly 1, rate cell the formatted expenses value), the standard
line exactly when both standard hours and standard rate are nonzero, the
overtime line exactly when both overtime values are nonzero, in exactly
that order; parsing each formatted cell back yields the driving value. -/
theorem c3_convert_rules (r : Row)
    (h1 : convEmployeeid r ≠ []) (h2 : convFirstname r ≠ []) (h3 : convSurname r ≠ [])
    (h4 : convWeek r ≠ []) (h5 : pyLower (convEmployeeid r) ≠ str ("candidate refno")) :
    (convert_rows [r] =
      (if ¬ Decimal.eqv (convExp r) Decimal.zero then [expLineRow r] else []) ++
      (if ¬ Decimal.eqv (convStdH r) Decimal.zero ∧ ¬ Decimal.eqv (convStdR r) Decimal.zero
        then [stdLineRow r] else []) ++
      (if ¬ Decimal.eqv (convOtH r) Decimal.zero ∧ ¬ Decimal.eqv (convOtR r) Decimal.zero
        then [otLineRow r] else [])) ∧
    Decimal.eqv (parse_decimal (fmt_decimal (convExp r))) (convExp r) ∧
    Decimal.eqv (parse_decimal (fmt_decimal (convStdH r))) (convStdH r) ∧
    Decimal.eqv (parse_decimal (fmt_decimal (convStdR r))) (convStdR r) ∧
    Decimal.eqv (parse_decimal (fmt_decimal (convOtH r))) (convOtH r) ∧
    Decimal.eqv (parse_decimal (fmt_decimal (convOtR r))) (convOtR r) := by
  refine ⟨?_, fmt_parse_eqv _, fmt_parse_eqv _, fmt_parse_eqv _, fmt_parse_eqv _,
    fmt_parse_eqv _⟩
  simp only [convEmployeeid, convFirstname, convSurname, convWeek] at h1 h2 h3 h4 h5
  simp only [convert_rows, convEmployeeid, convFirstname, convSurname, convClient, convJob,
    convWeek, convStdH, convOtH, convStdR, convOtR, convExp, expLineRow, stdLineRow, otLineRow]
  rw [if_neg (by push_neg; exact ⟨h1, h2, h3, h4⟩), if_neg h5]
  simp

/-- C3 witness: the theorem applied to the concrete row with expenses
25.50, standard hours 37.5 at rate 12 and no overtime. -/
theorem c3_witness :
    convert_rows [rowC3] =
      (if ¬ Decimal.eqv (convExp rowC3) Decimal.zero then [expLineRow rowC3] else []) ++
      (if ¬ Decimal.eqv (convStdH rowC3) Decimal.zero ∧
          ¬ Decimal.eqv (convStdR rowC3) Decimal.zero then [stdLineRow rowC3] else []) ++
      (if ¬ Decimal.eqv (convOtH rowC3) Decimal.zero ∧
          ¬ Decimal.eqv (convOtR rowC3) Decimal.zero then [otLineRow rowC3] else []) :=
  (c3_convert_rules rowC3 (by decide) (by decide) (by decide) (by decide) (by decide)).1

/-- C10 witness: the amended theorem applied to the concrete input
05/03/2025. -/
theorem c10_witness :
    parse_date (str ("05/03/2025")) = some ((if (str ("2025")).length = 2
      then ('2') :: ('0') :: str ("2025") else str ("2025")) ++
      ('-') :: (zfill 2 (str ("03")) ++ ('-') :: zfill 2 (str ("05")))) :=
  c10_amended.2.1 (str ("05/03/2025")) (str ("05")) (str ("03")) (str ("2025"))
    (by decide) (by decide) (by decide)

/-! Reconciliation lemmas: compare_outputs and the main loop. -/

/-- C2 counterexample: a key present only in the expected set produces no
finding at all — in particular no MISSING_LINE — because compare_outputs
only walks the actual grouping. -/
theorem c2_counterexample :
    compare_outputs [expC2] [] (str ("model")) = [] := by
  decide

/-- C2 amended: compare_outputs performs no symmetric check; a key
present only in the expected set yields nothing, and every discrepancy it
ever emits has kind EXTRA_LINE. -/
theorem c2_amended (expected : List ExpLine) (actualRows : List Row) (label : Str) :
    ∀ d ∈ compare_outputs expected actualRows label, d.ty = str ("EXTRA_LINE") := by
  intro d hd
  simp only [compare_outputs] at hd
  revert hd
  generalize dedupFirstAux [] (actualRows.map keyOf) = ks
  induction ks with
  | nil => intro h; cases h
  | cons k ks ih =>
    intro hd
    rw [List.foldr_cons] at hd
    rcases List.mem_append.mp hd with h | h
    · split at h
      · rcases List.mem_map.mp h with ⟨al, _, rfl⟩
        rfl
      · cases h
    · exact ih h

/-- C2 witness: the amended theorem applied to an actual row whose key
has no expected counterpart. -/
theorem c2_witness :
    (mkExtra (str ("model")) (str ("E7")) rowC2).ty = str ("EXTRA_LINE") :=
  c2_amended [] [rowC2] (str ("model")) (mkExtra (str ("model")) (str ("E7")) rowC2)
    (by decide)

theorem mainIssues_nil (inputRows : List Row) : mainIssues inputRows [] = [] := rfl

theorem mainIssues_cons (inputRows : List Row) (w : Row) (ws : List Row) :
    mainIssues inputRows (w :: ws) =
      mainRowIssues inputRows w ++ mainIssues inputRows ws := rfl

theorem filter_if_single_false {P : Prop} [Decidable P] {x : MainIssue} {p : MainIssue → Bool}
    (hx : p x = false) : (if P then [x] else []).filter p = [] := by
  split
  · simp [hx]
  · rfl

theorem filter_if_single_true {P : Prop} [Decidable P] {x : MainIssue} {p : MainIssue → Bool}
    (hx : p x = true) : (if P then [x] else []).filter p = if P then [x] else [] := by
  split
  · simp [hx]
  · rfl

theorem swapSeg_filter_ot1 (w : Row) : (swapSeg w).filter MainIssue.isOT1Zero = [] := by
  rw [swapSeg]
  cases floatOpt (pyStrip (rget w (str ("amount")) [])) with
  | none => rfl
  | some amt =>
    cases floatOpt (pyStrip (rget w (str ("rate")) [])) with
    | none => rfl
    | some rt => split <;> split <;> rfl

theorem swapSeg_eq (w : Row) {a rt : Decimal}
    (hA : floatOpt (pyStrip (rget w (str ("amount")) [])) = some a)
    (hR : floatOpt (pyStrip (rget w (str ("rate")) [])) = some rt) :
    swapSeg w =
      if Decimal.lt (Decimal.ofNat 100) a ∧ Decimal.le rt (Decimal.ofNat 10)
          ∧ strContains (str ("Hrs")) (rget w (str ("description")) []) = true
      then [mkSwapped w a rt] else [] := by
  rw [swapSeg, hA, hR]

theorem swapSeg_filter_swapped (w : Row) {a rt : Decimal}
    (hA : floatOpt (pyStrip (rget w (str ("amount")) [])) = some a)
    (hR : floatOpt (pyStrip (rget w (str ("rate")) [])) = some rt)
    (hhrs : strContains (str ("Hrs")) (rget w (str ("description")) []) = true) :
    (swapSeg w).filter MainIssue.isSwapped =
      if Decimal.lt (Decimal.ofNat 100) a ∧ Decimal.le rt (Decimal.ofNat 10)
      then [mkSwapped w a rt] else [] := by
  rw [swapSeg_eq w hA hR]
  by_cases hn : Decimal.lt (Decimal.ofNat 100) a ∧ Decimal.le rt (Decimal.ofNat 10)
  · rw [if_pos ⟨hn.1, hn.2, hhrs⟩, if_pos hn]
    rfl
  · rw [if_neg (fun hx => hn ⟨hx.1, hx.2.1⟩), if_neg hn]
    rfl

theorem filter_ot1_mainRowInp (w inp : Row) :
    (mainRowInp w inp).filter MainIssue.isOT1Zero =
      if strContains (str ("OT1 Hrs")) (rget w (str ("description")) []) ∧
          Decimal.eqv (parse_num (rget inp (str ("OT1 Hrs")) (str ("0")))) Decimal.zero
      then [mkOT1Zero w (parse_num (rget inp (str ("OT1 Rate")) (str ("0"))))] else [] := by
  simp only [mainRowInp, List.filter_append]
  rw [filter_if_single_true (x := mkOT1Zero w (parse_num (rget inp (str ("OT1 Rate")) (str ("0"))))) rfl,
    filter_if_single_false (x := mkExpZero w (parse_num (rget inp (str ("OT1 Rate")) (str ("0"))))) rfl,
    swapSeg_filter_ot1]
  simp

theorem filter_ot1_mainRowIssues_none {inputRows : List Row} {w : Row}
    (h : strContains (str ("OT1 Hrs")) (rget w (str ("description")) []) = false) :
    (mainRowIssues inputRows w).filter MainIssue.isOT1Zero = [] := by
  rw [mainRowIssues]
  induction matchingInputs inputRows w with
  | nil => rfl
  | cons inp rest ih =>
    rw [List.foldr_cons, List.filter_append, ih, filter_ot1_mainRowInp]
    rw [if_neg]
    · rfl
    · rintro ⟨h1, _⟩
      rw [h] at h1
      cases h1

theorem filter_ot1_mainIssues_nil {inputRows : List Row} {ws : List Row}
    (h : ws.filter (fun w => strContains (str ("OT1 Hrs")) (rget w (str ("description")) [])) = []) :
    (mainIssues inputRows ws).filter MainIssue.isOT1Zero = [] := by
  induction ws with
  | nil => rfl
  | cons w rest ih =>
    rw [List.filter_cons] at h
    rw [mainIssues_cons, List.filter_append]
    by_cases hc : strContains (str ("OT1 Hrs")) (rget w (str ("description")) []) = true
    · rw [if_pos hc] at h
      cases h
    · have hc2 : strContains (str ("OT1 Hrs")) (rget w (str ("description")) []) = false :=
        Bool.not_eq_true _ |>.mp hc
      rw [if_neg hc] at h
      rw [filter_ot1_mainRowIssues_none hc2, ih h]
      rfl

/-- C7: when exactly one actual line mentions OT1 Hrs in its description,
its employee and normalized week-ending match exactly one input record,
and that record has overtime hours exactly zero, the critical-issues loop
emits exactly one zero-overtime finding, and it references that line. -/
theorem c7_zero_driver (inputRows wrongRows : List Row) (w0 inp0 : Row)
    (hw : wrongRows.filter
      (fun w => strContains (str ("OT1 Hrs")) (rget w (str ("description")) [])) = [w0])
    (hm : matchingInputs inputRows w0 = [inp0])
    (hz : Decimal.eqv (parse_num (rget inp0 (str ("OT1 Hrs")) (str ("0")))) Decimal.zero) :
    (mainIssues inputRows wrongRows).filter MainIssue.isOT1Zero =
      [mkOT1Zero w0 (parse_num (rget inp0 (str ("OT1 Rate")) (str ("0"))))] := by
  induction wrongRows with
  | nil => cases hw
  | cons w rest ih =>
    rw [List.filter_cons] at hw
    rw [mainIssues_cons, List.filter_append]
    by_cases hc : strContains (str ("OT1 Hrs")) (rget w (str ("description")) []) = true
    · rw [if_pos hc] at hw
      injection hw with hw1 hw2
      subst hw1
      rw [filter_ot1_mainIssues_nil hw2]
      rw [mainRowIssues, hm, List.foldr_cons, List.foldr_nil]
      simp only [List.append_nil]
      rw [filter_ot1_mainRowInp, if_pos ⟨hc, hz⟩]
    · have hc2 : strContains (str ("OT1 Hrs")) (rget w (str ("description")) []) = false :=
        Bool.not_eq_true _ |>.mp hc
      rw [if_neg hc] at hw
      rw [filter_ot1_mainRowIssues_none hc2, ih hw]
      rfl

/-- C7 witness: the theorem applied to one overtime actual line matching
one input row whose overtime hours are zero. -/
theorem c7_witness :
    (mainIssues [rowC7i] [rowC7w]).filter MainIssue.isOT1Zero =
      [mkOT1Zero rowC7w (parse_num (rget rowC7i (str ("OT1 Rate")) (str ("0"))))] :=
  c7_zero_driver [rowC7i] [rowC7w] rowC7w rowC7i (by rfl) (by rfl) (by decide)

theorem strStarts_eq_append : ∀ {p l : Str}, strStarts p l = true → ∃ t, l = p ++ t := by
  intro p
  induction p with
  | nil => intro l _; exact ⟨l, rfl⟩
  | cons c p ih =>
    intro l h
    cases l with
    | nil => cases h
    | cons d t =>
      rw [strStarts, Bool.and_eq_true_iff] at h
      obtain ⟨h1, h2⟩ := h
      obtain ⟨u, rfl⟩ := ih h2
      exact ⟨u, by rw [List.cons_append, (decide_eq_true_eq).mp h1]⟩

theorem strStarts_append_right {p v : Str} (t : Str) (h : strStarts p v = true) :
    strStarts p (v ++ t) = true := by
  induction p generalizing v with
  | nil => rfl
  | cons c p ih =>
    cases v with
    | nil => cases h
    | cons d u =>
      rw [strStarts, Bool.and_eq_true_iff] at h
      rw [List.cons_append, strStarts, Bool.and_eq_true_iff]
      exact ⟨h.1, ih h.2⟩

theorem strContains_append_left {sub : Str} :
    ∀ {u : Str} (t : Str), strContains sub u = true → strContains sub (u ++ t) = true := by
  intro u
  induction u with
  | nil =>
    intro t h
    rw [strContains] at h
    cases sub with
    | nil => cases t <;> rfl
    | cons c p => cases h
  | cons c u ih =>
    intro t h
    rw [strContains, Bool.or_eq_true] at h
    rw [List.cons_append, strContains, Bool.or_eq_true]
    rcases h with h | h
    · exact Or.inl (strStarts_append_right t h)
    · exact Or.inr (ih t h)

theorem strContains_of_starts {p d sub : Str} (hs : strStarts p d = true)
    (hc : strContains sub p = true) : strContains sub d = true := by
  obtain ⟨t, rfl⟩ := strStarts_eq_append hs
  exact strContains_append_left t hc

theorem lineTypeOf_hours_contains {d : Str}
    (h : lineTypeOf d = str ("Std Hrs") ∨ lineTypeOf d = str ("OT1 Hrs") ∨
      lineTypeOf d = str ("OT2 Hrs") ∨ lineTypeOf d = str ("OT3 Hrs")) :
    strContains (str ("Hrs")) d = true := by
  by_cases h1 : strStarts (str ("Std Hrs")) d = true
  · exact strContains_of_starts h1 (by decide)
  by_cases h2 : strStarts (str ("OT1 Hrs")) d = true
  · exact strContains_of_starts h2 (by decide)
  by_cases h3 : strStarts (str ("OT2 Hrs")) d = true
  · exact strContains_of_starts h3 (by decide)
  by_cases h4 : strStarts (str ("OT3 Hrs")) d = true
  · exact strContains_of_starts h4 (by decide)
  exfalso
  rw [lineTypeOf, if_neg h1, if_neg h2, if_neg h3, if_neg h4] at h
  split at h <;> rcases h with h | h | h | h <;> exact absurd h (by decide)

theorem filter_swapped_mainRowInp (w inp : Row) {a rt : Decimal}
    (hA : floatOpt (pyStrip (rget w (str ("amount")) [])) = some a)
    (hR : floatOpt (pyStrip (rget w (str ("rate")) [])) = some rt)
    (hhrs : strContains (str ("Hrs")) (rget w (str ("description")) []) = true) :
    (mainRowInp w inp).filter MainIssue.isSwapped =
      if Decimal.lt (Decimal.ofNat 100) a ∧ Decimal.le rt (Decimal.ofNat 10)
      then [mkSwapped w a rt] else [] := by
  simp only [mainRowInp, List.filter_append]
  rw [filter_if_single_false
      (show MainIssue.isSwapped
        (mkOT1Zero w (parse_num (rget inp (str ("OT1 Rate")) (str ("0"))))) = false from rfl),
    filter_if_single_false
      (show MainIssue.isSwapped
        (mkExpZero w (parse_num (rget inp (str ("OT1 Rate")) (str ("0"))))) = false from rfl),
    swapSeg_filter_swapped w hA hR hhrs]
  simp

/-- C8: for an actual line whose description is categorized as an hours
line and whose amount and rate cells parse as floats, the critical-issues
loop flags it as swapped exactly when the amount exceeds 100 and the rate
is at most 10, once per input record sharing the employee and normalized
week-ending key. -/
theorem c8_swapped (inputRows : List Row) (w : Row) (a rt : Decimal)
    (hcat : lineTypeOf (rget w (str ("description")) []) = str ("Std Hrs") ∨
      lineTypeOf (rget w (str ("description")) []) = str ("OT1 Hrs") ∨
      lineTypeOf (rget w (str ("description")) []) = str ("OT2 Hrs") ∨
      lineTypeOf (rget w (str ("description")) []) = str ("OT3 Hrs"))
    (hA : floatOpt (pyStrip (rget w (str ("amount")) [])) = some a)
    (hR : floatOpt (pyStrip (rget w (str ("rate")) [])) = some rt) :
    (mainIssues inputRows [w]).filter MainIssue.isSwapped =
      if Decimal.lt (Decimal.ofNat 100) a ∧ Decimal.le rt (Decimal.ofNat 10)
      then (matchingInputs inputRows w).map (fun _ => mkSwapped w a rt) else [] := by
  have hhrs := lineTypeOf_hours_contains hcat
  rw [mainIssues_cons, mainIssues_nil, List.append_nil, mainRowIssues]
  induction matchingInputs inputRows w with
  | nil => split <;> rfl
  | cons inp rest ih =>
    rw [List.foldr_cons, List.filter_append, filter_swapped_mainRowInp w inp hA hR hhrs, ih,
      List.map_cons]
    split <;> rfl

/-! Equivalence of the analyzer derivation and the converter (claim C1). -/

theorem isoOfYMD_ne_nil (y m d : Nat) : isoOfYMD y m d ≠ [] := by
  rw [isoOfYMD]
  intro h
  rcases List.append_eq_nil.mp h with ⟨_, h2⟩
  cases h2

theorem parse_weekending_of_nil {s : Str} (h : pyStrip s = []) : parse_weekending s = [] := by
  simp only [parse_weekending, if_pos h]

theorem parse_weekending_ne_nil {s : Str} (h : pyStrip s ≠ []) : parse_weekending s ≠ [] := by
  simp only [parse_weekending, if_neg h]
  split
  · exact isoOfYMD_ne_nil _ _ _
  · split
    · exact isoOfYMD_ne_nil _ _ _
    · split
      · exact isoOfYMD_ne_nil _ _ _
      · exact h

theorem analyzeRow_eq (i : Nat) (r : Row) :
    analyzeRow i r =
      if pyStrip (rget r (str ("Candidate RefNo")) []) = [] ∨
          pyStrip (rget r (str ("Candidate Forename")) []) = [] ∨
          pyStrip (rget r (str ("Candidate Surname")) []) = [] ∨
          pyStrip (rget r (str ("Weekending")) []) = [] then ([], [])
      else
        ((if Decimal.lt Decimal.zero (anaExp r) then [mkAnaExpLine i r] else []) ++
         (if Decimal.lt Decimal.zero (anaStdH r) ∧ Decimal.lt Decimal.zero (anaStdR r)
           then [mkAnaStdLine i r] else []) ++
         (if Decimal.lt Decimal.zero (anaOtH r) ∧ Decimal.lt Decimal.zero (anaOtR r)
           then [mkAnaOtLine i r] else []),
         if Decimal.lt Decimal.zero (anaOtR r) ∧ Decimal.eqv (anaOtH r) Decimal.zero
           then [mkAnaIssue i r] else []) := rfl

theorem convert_rows_single (r : Row) :
    convert_rows [r] =
      if norm_spaces (rget r (str ("Candidate RefNo")) []) = [] ∨
          norm_spaces (rget r (str ("Candidate Forename")) []) = [] ∨
          norm_spaces (rget r (str ("Candidate Surname")) []) = [] ∨
          parse_weekending (rget r (str ("Weekending")) []) = [] then []
      else if pyLower (norm_spaces (rget r (str ("Candidate RefNo")) [])) =
          str ("candidate refno") then []
      else
        (if ¬ Decimal.eqv (convExp r) Decimal.zero then [expLineRow r] else []) ++
        (if ¬ Decimal.eqv (convStdH r) Decimal.zero ∧ ¬ Decimal.eqv (convStdR r) Decimal.zero
          then [stdLineRow r] else []) ++
        (if ¬ Decimal.eqv (convOtH r) Decimal.zero ∧ ¬ Decimal.eqv (convOtR r) Decimal.zero
          then [otLineRow r] else []) := by
  simp only [convert_rows, convExp, convStdH, convStdR, convOtH, convOtR, expLineRow,
    stdLineRow, otLineRow, convEmployeeid, convFirstname, convSurname, convClient, convJob,
    convWeek]
  split
  · rfl
  · split
    · rfl
    · simp

theorem convert_rows_cons (r : Row) (rest : List Row) :
    convert_rows (r :: rest) = convert_rows [r] ++ convert_rows rest := by
  simp only [convert_rows]
  split
  · simp
  · split
    · simp
    · simp [List.append_assoc]

theorem forall2_app {α β : Type} {R : α → β → Prop} :
    ∀ {a b : List α} {c d : List β}, List.Forall₂ R a c → List.Forall₂ R b d →
      List.Forall₂ R (a ++ b) (c ++ d) := by
  intro a b c d h1 h2
  induction h1 with
  | nil => exact h2
  | cons hr _ ih => exact List.Forall₂.cons hr ih

theorem desc_match {r : Row} (pre preDash : Str)
    (hpre : norm_spaces pre ++ str (" - ") = preDash)
    (hCli : pyStrip (rget r (str ("Client Name")) []) =
      norm_spaces (rget r (str ("Client Name")) []))
    (hJob : pyStrip (rget r (str ("Contract JobTitle")) []) =
      norm_spaces (rget r (str ("Contract JobTitle")) [])) :
    descStr pre (rget r (str ("Client Name")) []) (rget r (str ("Contract JobTitle")) []) =
      preDash ++ pyStrip (rget r (str ("Client Name")) []) ++ str (" - ") ++
        pyStrip (rget r (str ("Contract JobTitle")) []) := by
  rw [descStr, hCli, hJob, ← hpre]

theorem analyzeRow_matches (i : Nat) (r : Row) (hr : aligned r) :
    List.Forall₂ lineMatches (analyzeRow i r).1 (convert_rows [r]) := by
  obtain ⟨hRef, hFor, hSur, hCli, hJob, hHdr, hDate, hE, hSH, hSR, hOH, hOR,
    hpE, hpSH, hpSR, hpOH, hpOR⟩ := hr
  have hRef' : pyStrip (rget r (str ("Candidate RefNo")) []) =
      norm_spaces (rget r (str ("Candidate RefNo")) []) := hRef
  have hFor' : pyStrip (rget r (str ("Candidate Forename")) []) =
      norm_spaces (rget r (str ("Candidate Forename")) []) := hFor
  have hSur' : pyStrip (rget r (str ("Candidate Surname")) []) =
      norm_spaces (rget r (str ("Candidate Surname")) []) := hSur
  have hCli' : pyStrip (rget r (str ("Client Name")) []) =
      norm_spaces (rget r (str ("Client Name")) []) := hCli
  have hJob' : pyStrip (rget r (str ("Contract JobTitle")) []) =
      norm_spaces (rget r (str ("Contract JobTitle")) []) := hJob
  rw [analyzeRow_eq, convert_rows_single]
  by_cases hg : pyStrip (rget r (str ("Candidate RefNo")) []) = [] ∨
      pyStrip (rget r (str ("Candidate Forename")) []) = [] ∨
      pyStrip (rget r (str ("Candidate Surname")) []) = [] ∨
      pyStrip (rget r (str ("Weekending")) []) = []
  · have hg2 : norm_spaces (rget r (str ("Candidate RefNo")) []) = [] ∨
        norm_spaces (rget r (str ("Candidate Forename")) []) = [] ∨
        norm_spaces (rget r (str ("Candidate Surname")) []) = [] ∨
        parse_weekending (rget r (str ("Weekending")) []) = [] := by
      rcases hg with h | h | h | h
      · exact Or.inl (by rw [← hRef']; exact h)
      · exact Or.inr (Or.inl (by rw [← hFor']; exact h))
      · exact Or.inr (Or.inr (Or.inl (by rw [← hSur']; exact h)))
      · exact Or.inr (Or.inr (Or.inr (parse_weekending_of_nil h)))
    rw [if_pos hg, if_pos hg2]
    exact List.Forall₂.nil
  · have h1 : pyStrip (rget r (str ("Candidate RefNo")) []) ≠ [] := fun h => hg (Or.inl h)
    have h2 : pyStrip (rget r (str ("Candidate Forename")) []) ≠ [] :=
      fun h => hg (Or.inr (Or.inl h))
    have h3 : pyStrip (rget r (str ("Candidate Surname")) []) ≠ [] :=
      fun h => hg (Or.inr (Or.inr (Or.inl h)))
    have h4 : pyStrip (rget r (str ("Weekending")) []) ≠ [] :=
      fun h => hg (Or.inr (Or.inr (Or.inr h)))
    have hg2 : ¬(norm_spaces (rget r (str ("Candidate RefNo")) []) = [] ∨
        norm_spaces (rget r (str ("Candidate Forename")) []) = [] ∨
        norm_spaces (rget r (str ("Candidate Surname")) []) = [] ∨
        parse_weekending (rget r (str ("Weekending")) []) = []) := by
      push_neg
      exact ⟨by rw [← hRef']; exact h1, by rw [← hFor']; exact h2,
        by rw [← hSur']; exact h3, parse_weekending_ne_nil h4⟩
    rw [if_neg hg, if_neg hg2, if_neg hHdr]
    have hweek : parse_date (pyStrip (rget r (str ("Weekending")) [])) =
        some (parse_weekending (rget r (str ("Weekending")) [])) := hDate h4
    have hA : List.Forall₂ lineMatches
        (if Decimal.lt Decimal.zero (anaExp r) then [mkAnaExpLine i r] else [])
        (if ¬ Decimal.eqv (convExp r) Decimal.zero then [expLineRow r] else []) := by
      by_cases hp : 0 < (convExp r).num
      · rw [if_pos (show Decimal.lt Decimal.zero (anaExp r) by
            rw [hE]; exact Decimal.lt_zero_iff.mpr hp),
          if_pos (show ¬ Decimal.eqv (convExp r) Decimal.zero from fun hx => by
            rw [Decimal.eqv_zero_iff] at hx; omega)]
        refine List.Forall₂.cons ⟨str ("1"), fmt_decimal (convExp r), ?_, ?_, ?_⟩
          List.Forall₂.nil
        · simp only [expLineRow, mkAnaExpLine, convEmployeeid, convFirstname, convSurname,
            convClient, convJob, convWeek]
          rw [← hRef', ← hFor', ← hSur',
            desc_match (str ("Expenses")) (str ("Expenses - ")) (by decide) hCli' hJob',
            hweek]
          simp
        · show Decimal.eqv (parse_decimal (str ("1"))) (Decimal.ofNat 1)
          decide
        · show Decimal.eqv (parse_decimal (fmt_decimal (convExp r))) (anaExp r)
          rw [hE]
          exact fmt_parse_eqv (convExp r)
      · rw [if_neg (show ¬ Decimal.lt Decimal.zero (anaExp r) from fun hx => by
            rw [hE, Decimal.lt_zero_iff] at hx; exact hp hx),
          if_neg (show ¬¬ Decimal.eqv (convExp r) Decimal.zero from
            fun hx => hx (Decimal.eqv_zero_iff.mpr (by omega)))]
        exact List.Forall₂.nil
    have hB : List.Forall₂ lineMatches
        (if Decimal.lt Decimal.zero (anaStdH r) ∧ Decimal.lt Decimal.zero (anaStdR r)
          then [mkAnaStdLine i r] else [])
        (if ¬ Decimal.eqv (convStdH r) Decimal.zero ∧ ¬ Decimal.eqv (convStdR r) Decimal.zero
          then [stdLineRow r] else []) := by
      by_cases hp : 0 < (convStdH r).num ∧ 0 < (convStdR r).num
      · rw [if_pos (show Decimal.lt Decimal.zero (anaStdH r) ∧
              Decimal.lt Decimal.zero (anaStdR r) from
            ⟨by rw [hSH]; exact Decimal.lt_zero_iff.mpr hp.1,
             by rw [hSR]; exact Decimal.lt_zero_iff.mpr hp.2⟩),
          if_pos (show ¬ Decimal.eqv (convStdH r) Decimal.zero ∧
              ¬ Decimal.eqv (convStdR r) Decimal.zero from
            ⟨fun hx => by rw [Decimal.eqv_zero_iff] at hx; omega,
             fun hx => by rw [Decimal.eqv_zero_iff] at hx; omega⟩)]
        refine List.Forall₂.cons
          ⟨fmt_decimal (convStdH r), fmt_decimal (convStdR r), ?_, ?_, ?_⟩ List.Forall₂.nil
        · simp only [stdLineRow, mkAnaStdLine, convEmployeeid, convFirstname, convSurname,
            convClient, convJob, convWeek]
          rw [← hRef', ← hFor', ← hSur',
            desc_match (str ("Std Hrs")) (str ("Std Hrs - ")) (by decide) hCli' hJob',
            hweek]
          simp
        · show Decimal.eqv (parse_decimal (fmt_decimal (convStdH r))) (anaStdH r)
          rw [hSH]
          exact fmt_parse_eqv (convStdH r)
        · show Decimal.eqv (parse_decimal (fmt_decimal (convStdR r))) (anaStdR r)
          rw [hSR]
          exact fmt_parse_eqv (convStdR r)
      · rw [if_neg (show ¬(Decimal.lt Decimal.zero (anaStdH r) ∧
              Decimal.lt Decimal.zero (anaStdR r)) from fun hx => hp
            ⟨by have := hx.1; rw [hSH, Decimal.lt_zero_iff] at this; exact this,
             by have := hx.2; rw [hSR, Decimal.lt_zero_iff] at this; exact this⟩),
          if_neg (show ¬(¬ Decimal.eqv (convStdH r) Decimal.zero ∧
              ¬ Decimal.eqv (convStdR r) Decimal.zero) from fun hx => hp
            ⟨by have hne : (convStdH r).num ≠ 0 :=
                  fun he => hx.1 (Decimal.eqv_zero_iff.mpr he)
                omega,
             by have hne : (convStdR r).num ≠ 0 :=
                  fun he => hx.2 (Decimal.eqv_zero_iff.mpr he)
                omega⟩)]
        exact List.Forall₂.nil
    have hC : List.Forall₂ lineMatches
        (if Decimal.lt Decimal.zero (anaOtH r) ∧ Decimal.lt Decimal.zero (anaOtR r)
          then [mkAnaOtLine i r] else [])
        (if ¬ Decimal.eqv (convOtH r) Decimal.zero ∧ ¬ Decimal.eqv (convOtR r) Decimal.zero
          then [otLineRow r] else []) := by
      by_cases hp : 0 < (convOtH r).num ∧ 0 < (convOtR r).num
      · rw [if_pos (show Decimal.lt Decimal.zero (anaOtH r) ∧
              Decimal.lt Decimal.zero (anaOtR r) from
            ⟨by rw [hOH]; exact Decimal.lt_zero_iff.mpr hp.1,
             by rw [hOR]; exact Decimal.lt_zero_iff.mpr hp.2⟩),
          if_pos (show ¬ Decimal.eqv (convOtH r) Decimal.zero ∧
              ¬ Decimal.eqv (convOtR r) Decimal.zero from
            ⟨fun hx => by rw [Decimal.eqv_zero_iff] at hx; omega,
             fun hx => by rw [Decimal.eqv_zero_iff] at hx; omega⟩)]
        refine List.Forall₂.cons
          ⟨fmt_decimal (convOtH r), fmt_decimal (convOtR r), ?_, ?_, ?_⟩ List.Forall₂.nil
        · simp only [otLineRow, mkAnaOtLine, convEmployeeid, convFirstname, convSurname,
            convClient, convJob, convWeek]
          rw [← hRef', ← hFor', ← hSur',
            desc_match (str ("OT1 Hrs")) (str ("OT1 Hrs - ")) (by decide) hCli' hJob',
            hweek]
          simp
        · show Decimal.eqv (parse_decimal (fmt_decimal (convOtH r))) (anaOtH r)
          rw [hOH]
          exact fmt_parse_eqv (convOtH r)
        · show Decimal.eqv (parse_decimal (fmt_decimal (convOtR r))) (anaOtR r)
          rw [hOR]
          exact fmt_parse_eqv (convOtR r)
      · rw [if_neg (show ¬(Decimal.lt Decimal.zero (anaOtH r) ∧
              Decimal.lt Decimal.zero (anaOtR r)) from fun hx => hp
            ⟨by have := hx.1; rw [hOH, Decimal.lt_zero_iff] at this; exact this,
             by have := hx.2; rw [hOR, Decimal.lt_zero_iff] at this; exact this⟩),
          if_neg (show ¬(¬ Decimal.eqv (convOtH r) Decimal.zero ∧
              ¬ Decimal.eqv (convOtR r) Decimal.zero) from fun hx => hp
            ⟨by have hne : (convOtH r).num ≠ 0 :=
                  fun he => hx.1 (Decimal.eqv_zero_iff.mpr he)
                omega,
             by have hne : (convOtR r).num ≠ 0 :=
                  fun he => hx.2 (Decimal.eqv_zero_iff.mpr he)
                omega⟩)]
        exact List.Forall₂.nil
    exact forall2_app (forall2_app hA hB) hC

theorem analyzeAux_matches (i : Nat) (rows : List Row) (h : ∀ r ∈ rows, aligned r) :
    List.Forall₂ lineMatches (analyzeAux i rows).1 (convert_rows rows) := by
  induction rows generalizing i with
  | nil => exact List.Forall₂.nil
  | cons r rest ih =>
    rw [convert_rows_cons]
    exact forall2_app (analyzeRow_matches i r (h r (List.mem_cons_self r rest)))
      (ih (i + 1) (fun x hx => h x (List.mem_cons_of_mem r hx)))

/-- C1 counterexample: on a valid record with a negative expenses value
the analyzer derives no expected line while the converter emits one, so
the two rule sets are not identical. -/
theorem c1_counterexample :
    (analyze_input [rowC1]).1 = [] ∧ (convert_rows [rowC1]).length = 1 := by
  decide

/-- C1 amended: the analyzer derivation and the converter output agree
line for line, in order and with equal field values (numeric cells read
back as values), for rows on which the two rule sets cannot diverge:
text fields already internally normalized, no header-label reference, the
two date normalizers agreeing, the analyzer column fallbacks yielding the
converter values, and all numeric drivers nonnegative. -/
theorem c1_amended (rows : List Row) (h : ∀ r ∈ rows, aligned r) :
    List.Forall₂ lineMatches (analyze_input rows).1 (convert_rows rows) :=
  analyzeAux_matches 2 rows h

/-- C1 witness: the amended theorem applied to the concrete aligned
row. -/
theorem c1_witness :
    List.Forall₂ lineMatches (analyze_input [rowC3]).1 (convert_rows [rowC3]) :=
  c1_amended [rowC3] (by decide)

/-- C8 witness: the theorem applied to an hours line with amount 150 and
rate 5 matching one input record. -/
theorem c8_witness :
    (mainIssues [rowC7i] [rowC8w]).filter MainIssue.isSwapped =
      if Decimal.lt (Decimal.ofNat 100) ⟨150, 0⟩ ∧ Decimal.le ⟨5, 0⟩ (Decimal.ofNat 10)
      then (matchingInputs [rowC7i] rowC8w).map
        (fun _ => mkSwapped rowC8w ⟨150, 0⟩ ⟨5, 0⟩) else [] :=
  c8_swapped [rowC7i] rowC8w ⟨150, 0⟩ ⟨5, 0⟩ (by decide) (by decide) (by decide)

end Timesheet
